import Mathlib

/-!
Verification of the snapshot-retrieval-and-analysis pipeline of the
mvp-api-services repository, as a shallow embedding in Lean 4.

Modules embedded (each namespace mirrors one source file):
  - `MetricsAnalyzer`  : src/lib/adapters/wayback/metricsAnalyzer.js
  - `HtmlParser`       : src/lib/adapters/wayback/htmlParser.js
  - `TopicAnalyzer`    : src/lib/adapters/wayback/topicAnalyzer.js
  - `WaybackClient`    : the CDX client (getSnapshots)
  - `WaybackAdapter`   : the orchestrator (analyzeDomainForSpam,
                         analyzeDomainComplete risk aggregation, batch sorting)

JavaScript numbers are modelled as exact rationals together with the
distinguished values `undefined`, `null` and `NaN` (`JsVal`); machine
floating point plays no role in any of the computations below (all source
arithmetic is on small integers and short sums of them).  Strings are
modelled as `List Char`.  Effectful inputs (network responses, extracted
page content) are passed in explicitly as data.
-/

/-- Model of a JavaScript value as used by the analyzed code: a number,
or one of the special values `undefined`, `null`, `NaN`. -/
inductive JsVal where
  | undef : JsVal
  | null  : JsVal
  | nan   : JsVal
  | num   : ℚ → JsVal
deriving DecidableEq, Repr

namespace JsVal

/-- JavaScript ToNumber coercion restricted to the values we model:
`undefined` becomes `NaN`, `null` becomes `0`. -/
def toNumber : JsVal → JsVal
  | undef => nan
  | null  => num 0
  | nan   => nan
  | num q => num q

/-- JavaScript truthiness for the values we model. -/
def truthy : JsVal → Bool
  | undef => false
  | null  => false
  | nan   => false
  | num q => q != 0

end JsVal

/-- JavaScript `Math.round` on an exact rational: round half toward
positive infinity. -/
def jround (q : ℚ) : ℤ := ⌊q + 1/2⌋

/-- JavaScript `+` on numbers (after ToNumber); `NaN` is absorbing. -/
def jsAdd (a b : JsVal) : JsVal :=
  match a.toNumber, b.toNumber with
  | .num x, .num y => .num (x + y)
  | _, _ => .nan

/-- JavaScript `*` on numbers (after ToNumber); `NaN` is absorbing. -/
def jsMul (a b : JsVal) : JsVal :=
  match a.toNumber, b.toNumber with
  | .num x, .num y => .num (x * y)
  | _, _ => .nan

/-- JavaScript `Math.min`; returns `NaN` if either argument is `NaN`. -/
def jsMin (a b : JsVal) : JsVal :=
  match a.toNumber, b.toNumber with
  | .num x, .num y => .num (min x y)
  | _, _ => .nan

/-- JavaScript `/` on numbers.  The analyzed code never divides by zero
(divisors are guarded by `factors > 0` and `|| 1`), so the zero-divisor
case is mapped to `NaN` without loss. -/
def jsDiv (a b : JsVal) : JsVal :=
  match a.toNumber, b.toNumber with
  | .num x, .num y => if y = 0 then .nan else .num (x / y)
  | _, _ => .nan

/-- JavaScript `Math.round` lifted to `JsVal`; `Math.round(NaN) = NaN`. -/
def jsRound (a : JsVal) : JsVal :=
  match a.toNumber with
  | .num q => .num ((jround q : ℤ) : ℚ)
  | _ => .nan

/-- JavaScript `<` against a numeric constant (after ToNumber);
any comparison involving `NaN` is false. -/
def jsLt (a : JsVal) (b : ℚ) : Bool :=
  match a.toNumber with
  | .num q => q < b
  | _ => false

/-- JavaScript `>` against a numeric constant (after ToNumber);
any comparison involving `NaN` is false. -/
def jsGt (a : JsVal) (b : ℚ) : Bool :=
  match a.toNumber with
  | .num q => b < q
  | _ => false

/-- Strings are modelled as lists of characters. -/
abbrev Str := List Char

/-- JavaScript `toLowerCase`, character-wise. -/
def lowerStr (s : Str) : Str := s.map Char.toLower

/-- JavaScript `trim`: strip leading and trailing whitespace. -/
def trimStr (s : Str) : Str :=
  ((s.dropWhile Char.isWhitespace).reverse.dropWhile Char.isWhitespace).reverse

namespace MetricsAnalyzer

/-!
Embedding of `metricsAnalyzer.js`.

The three sub-metric lookups are effectful; their outcomes are inputs:
  - `opr` models the outcome of `getOpenPageRankMetrics(domain)`:
    `none` when the function returned `null` (API error, non-200
    status code or empty response), `some none` when it returned an
    object whose `domainRating` is `null` (falsy `result.rank`), and
    `some (some q)` when it returned `domainRating = q`.
  - `da`  models `getDomainAuthorityMetrics(domain)`: `none` when it
    returned `null`, `some q` for `{ domainAuthority: q }`.
  - `tf`  models `getTrustFlowMetrics(domain, backlinkData)`: `none`
    when it returned `null`, `some (t, c)` for trust flow `t` and
    citation flow `c`.
The `rankAbsolute`, `timestamp` and `source` fields are carried by the
source object but never read by any computation, so they are omitted.
-/

/-- The combined metrics object built by `getDomainMetrics`.  A field
stays `undefined` when its source lookup returned `null`, because the
corresponding `if (xxMetrics)` block is skipped. -/
structure DomainMetrics where
  domainRating : JsVal
  domainAuthority : JsVal
  trustFlow : JsVal
  citationFlow : JsVal
  spamScore : ℚ
  overallQualityScore : JsVal
deriving DecidableEq, Repr

/-- `metrics.trustFlow || 1`: the divisor used in the citation-flow to
trust-flow ratio; falsy values (`undefined`, `null`, `0`) become `1`. -/
def orOne (v : JsVal) : ℚ :=
  match v with
  | .num q => if q = 0 then 1 else q
  | _ => 1

/-- `calculateSpamScore(domain, metrics)` from metricsAnalyzer.js,
lines 134-155, as a function of the four metric fields it reads. -/
def calculateSpamScore (dr da tf cf : JsVal) : ℚ :=
  let s1 : ℚ :=
    if dr ≠ .null ∧ jsLt dr 20 then 30
    else if dr ≠ .null ∧ jsLt dr 40 then 15
    else 0
  let s2 : ℚ :=
    if da ≠ .null ∧ jsLt da 20 then s1 + 25
    else if da ≠ .null ∧ jsLt da 40 then s1 + 12
    else s1
  let s3 : ℚ :=
    if tf ≠ .null ∧ jsLt tf 10 then s2 + 20
    else if tf ≠ .null ∧ jsLt tf 20 then s2 + 10
    else s2
  let s4 : ℚ :=
    if cf ≠ .null ∧ tf ≠ .null then
      let ratio := jsDiv cf.toNumber (.num (orOne tf))
      if jsGt ratio 3 then s3 + 15 else s3
    else s3
  min 100 s4

/-- `getDomainMetrics(domain, backlinkData)` from metricsAnalyzer.js,
lines 163-217, as a function of the three sub-lookup outcomes.
Note the combination step: a failed lookup (`none`) leaves the field
`undefined`, while a successful lookup with a falsy rank sets
`domainRating` to `null`; the quality-score accumulation then tests
each field with a strict `!== null` comparison. -/
def getDomainMetrics (opr : Option (Option ℚ)) (da : Option ℚ)
    (tf : Option (ℚ × ℚ)) : DomainMetrics :=
  let domainRating : JsVal :=
    match opr with
    | none => .undef
    | some none => .null
    | some (some q) => .num q
  let domainAuthority : JsVal :=
    match da with
    | none => .undef
    | some q => .num q
  let trustFlow : JsVal :=
    match tf with
    | none => .undef
    | some p => .num p.1
  let citationFlow : JsVal :=
    match tf with
    | none => .undef
    | some p => .num p.2
  let spamScore := calculateSpamScore domainRating domainAuthority trustFlow citationFlow
  -- qualityScore / factors accumulation (lines 198-214)
  let qf1 : JsVal × ℕ :=
    if domainRating ≠ .null then
      (jsAdd (.num 0) (jsMin (.num 100) (jsMul domainRating (.num 2))), 1)
    else (.num 0, 0)
  let qf2 : JsVal × ℕ :=
    if domainAuthority ≠ .null then (jsAdd qf1.1 domainAuthority, qf1.2 + 1) else qf1
  let qf3 : JsVal × ℕ :=
    if trustFlow ≠ .null then (jsAdd qf2.1 trustFlow, qf2.2 + 1) else qf2
  let overallQualityScore : JsVal :=
    if qf3.2 > 0 then jsRound (jsDiv qf3.1 (.num qf3.2)) else .null
  { domainRating := domainRating
    domainAuthority := domainAuthority
    trustFlow := trustFlow
    citationFlow := citationFlow
    spamScore := spamScore
    overallQualityScore := overallQualityScore }

end MetricsAnalyzer

namespace HtmlParser

/-!
Embedding of `checkStopWords` from htmlParser.js (lines 118-161).
The function is pure: it receives the combined text corpus and the raw
stop-word list and returns the findings and the 0-10 spam score.
-/

/-- `text.includes(w)`: substring test, scanning positions left to
right. -/
def includes : Str → Str → Bool
  | [], w => w.isEmpty
  | c :: rest, w => w.isPrefixOf (c :: rest) || includes rest w

/-- Fuel-indexed helper for `countOccs`; the fuel is an upper bound on
the length of the scanned text, making the recursion structural. -/
def countOccsGo (w : Str) : ℕ → Str → ℕ
  | 0, _ => 0
  | _ + 1, [] => 0
  | fuel + 1, c :: rest =>
    if !w.isEmpty && w.isPrefixOf (c :: rest) then
      1 + countOccsGo w fuel ((c :: rest).drop w.length)
    else
      countOccsGo w fuel rest

/-- The match count of `textLower.match(new RegExp(escapedWord, "gi"))`:
leftmost non-overlapping occurrences of `w` in `t`, scanning left to
right and skipping the length of `w` after each match.  The source only
calls this with a nonempty `w` (the `wordLower &&` guard); for `w = []`
the inner guard makes the count `0`. -/
def countOccs (w t : Str) : ℕ := countOccsGo w t.length t

/-- One entry of the `found` array: `{ word, count }`. -/
structure Finding where
  word : Str
  count : ℕ
deriving DecidableEq, Repr

/-- The `stopWords.forEach` accumulation of `checkStopWords` (lines
126-141): normalize each stop word (`toLowerCase().trim()`), test
`includes` on the lowercased text, count occurrences, and push a finding
unless an entry for the same word is already present. -/
def buildFound (textLower : Str) : List Str → List Finding → List Finding
  | [], found => found
  | word :: rest, found =>
    let wordLower := trimStr (lowerStr word)
    if !wordLower.isEmpty && includes textLower wordLower then
      if found.any (fun item => item.word == wordLower) then
        buildFound textLower rest found
      else
        buildFound textLower rest (found ++ [⟨wordLower, countOccs wordLower textLower⟩])
    else
      buildFound textLower rest found

/-- The result object of `checkStopWords`: `{ found, count, score }`. -/
structure SpamCheck where
  found : List Finding
  count : ℕ
  score : ℕ
deriving DecidableEq, Repr

/-- `checkStopWords(text, stopWords)` (htmlParser.js lines 118-161).
Every reachable score is an integer, so the final
`Math.round(score * 10) / 10` is the identity and the score is kept as a
natural number. -/
def checkStopWords (text : Str) (stopWords : List Str) : SpamCheck :=
  if text.isEmpty || stopWords.isEmpty then ⟨[], 0, 0⟩
  else
    let textLower := lowerStr text
    let found := buildFound textLower stopWords []
    let score : ℕ :=
      if 0 < found.length then
        let base := min 10 (found.length * 2)
        let total : ℕ := found.foldl (fun sum item => sum + item.count) 0
        if 10 < total then 10
        else if 5 < total then min 10 (base + 2)
        else base
      else 0
    ⟨found, found.length, score⟩

/-- Declarative comparison side for claims C4 and C5: the set of
normalized stop words that occur in the lowercased text. -/
def matchedWordSet (text : Str) (stopWords : List Str) : Finset Str :=
  ((stopWords.map (fun w => trimStr (lowerStr w))).filter
    (fun wl => !wl.isEmpty && includes (lowerStr text) wl)).toFinset

/-- Declarative comparison side for claims C4 and C5: total occurrence
count over the matched stop words. -/
def totalOccurrences (text : Str) (stopWords : List Str) : ℕ :=
  (matchedWordSet text stopWords).sum (fun w => countOccs w (lowerStr text))

/-- The score formula as the spec states it: `0` when nothing matches,
otherwise `min(10, uniqueMatches * 2)`, raised by `2` (capped at 10)
when the total occurrence count exceeds 5, and forced to `10` when it
exceeds 10. -/
def scoreFormula (u total : ℕ) : ℕ :=
  if u = 0 then 0
  else if 10 < total then 10
  else if 5 < total then min 10 (min 10 (u * 2) + 2)
  else min 10 (u * 2)

end HtmlParser

namespace WaybackClient

/-!
Embedding of `WaybackClient.getSnapshots` (the CDX client).  The network
is modelled as an environment `env : ℕ → CdxResp` giving the response to
the attempt with the given retry count; the function returns both the
outcome and the list of backoff delays (in milliseconds) it slept, in
order.  Request construction (URL normalization, query parameters) and
the JSON transport are not modelled; the response body arrives as the
already-decoded row list.
-/

/-- One row of the CDX JSON response with
`fl=timestamp,original,statuscode,mime,length`; all five fields arrive
as strings (`mime` and `len` model `row[3]` and `row[4]`, which the
mapping never reads). -/
structure CdxRow where
  timestamp : Str
  original : Str
  statuscode : Str
  mime : Str
  len : Str
deriving DecidableEq, Repr

/-- A capture entry as returned by `getSnapshots`. -/
structure Capture where
  timestamp : Str
  originalUrl : Str
  statusCode : JsVal
deriving DecidableEq, Repr

/-- Digit accumulation for `parseIntJs`. -/
def parseIntGo (acc : ℤ) : Str → ℤ
  | [] => acc
  | c :: rest => parseIntGo (acc * 10 + ((c.toNat : ℤ) - 48)) rest

/-- JavaScript `parseInt(s, 10)`: skip leading whitespace, accept an
optional sign, read the leading digit run; `NaN` when no digit
follows. -/
def parseIntJs (s : Str) : JsVal :=
  let t := s.dropWhile Char.isWhitespace
  let signed : ℤ × Str :=
    match t with
    | '-' :: r => (-1, r)
    | '+' :: r => (1, r)
    | r => (1, r)
  match signed.2 with
  | [] => .nan
  | c :: _ =>
    if c.isDigit then .num ((signed.1 * parseIntGo 0 (signed.2.takeWhile Char.isDigit) : ℤ) : ℚ)
    else .nan

/-- The row-to-capture mapping of lines 420-442: default the string
fields to the empty string (`|| ''`, the identity on strings in this
model) and parse the status code, `null` when the field is falsy. -/
def rowToCapture (row : CdxRow) : Capture :=
  { timestamp := row.timestamp
    originalUrl := row.original
    statusCode := if row.statuscode.isEmpty then .null else parseIntJs row.statuscode }

/-- Lines 414-417: the first row is a header iff its first field is
`timestamp` or `Timestamp`. -/
def hasHeaders (data : List CdxRow) : Bool :=
  match data with
  | [] => false
  | first :: _ =>
    first.timestamp == "timestamp".toList || first.timestamp == "Timestamp".toList

/-- Lines 409-442: empty body gives an empty capture list; otherwise
drop a header row if present, map the rows and keep only captures with
nonempty timestamp and URL. -/
def parseCdxData (data : List CdxRow) : List Capture :=
  if data.isEmpty then []
  else
    let rows := if hasHeaders data then data.tail else data
    (rows.map rowToCapture).filter
      (fun snapshot => !snapshot.timestamp.isEmpty && !snapshot.originalUrl.isEmpty)

/-- The response of the capture index to one attempt: an HTTP status
with a decoded body, or a timeout of the request itself. -/
inductive CdxResp where
  | http : ℕ → List CdxRow → CdxResp
  | netTimeout : CdxResp
deriving DecidableEq, Repr

/-- The terminal failures of `getSnapshots`: `CDX API rate limit
exceeded after N retries`, `CDX API returned HTTP status` (wrapped into
`Failed to fetch snapshots`), and `Request timeout after Nms`. -/
inductive CdxError where
  | rateLimited : CdxError
  | indexUnavailable : ℕ → CdxError
  | timeout : CdxError
deriving DecidableEq, Repr

instance : DecidableEq (Except CdxError (List Capture)) := fun a b =>
  match a, b with
  | .error e, .error f =>
    if h : e = f then isTrue (by rw [h]) else isFalse (by simp [h])
  | .ok x, .ok y =>
    if h : x = y then isTrue (by rw [h]) else isFalse (by simp [h])
  | .error _, .ok _ => isFalse (by simp)
  | .ok _, .error _ => isFalse (by simp)

/-- Outcome of `getSnapshots`: the result and the backoff delays slept,
in milliseconds and in order. -/
structure GetSnapshotsOut where
  result : Except CdxError (List Capture)
  delays : List ℕ
deriving DecidableEq, Repr

/-- Fuel-indexed body of `getSnapshots`; the fuel strictly exceeds the
remaining retries, making the recursion structural. -/
def getSnapshotsGo (env : ℕ → CdxResp) (maxRetries : ℕ) :
    ℕ → ℕ → GetSnapshotsOut
  | 0, _ => ⟨.error .rateLimited, []⟩
  | fuel + 1, retryCount =>
    match env retryCount with
    | .netTimeout => ⟨.error .timeout, []⟩
    | .http status data =>
      if status = 429 then
        if retryCount < maxRetries then
          let next := getSnapshotsGo env maxRetries fuel (retryCount + 1)
          ⟨next.result, (2 ^ retryCount * 2000) :: next.delays⟩
        else ⟨.error .rateLimited, []⟩
      else if 200 ≤ status ∧ status < 300 then ⟨.ok (parseCdxData data), []⟩
      else ⟨.error (.indexUnavailable status), []⟩

/-- `getSnapshots(target, limit, retryCount, maxRetries)` (topicAnalyzer
file, lines 356-449): on HTTP 429 sleep `2 ^ retryCount * 2000` ms and
retry while `retryCount < maxRetries`, then fail rate-limited; on any
other non-2xx response fail index-unavailable; on a 2xx response parse
the body; on request timeout fail with the timeout error.  The source
default is `maxRetries = 3`. -/
def getSnapshots (env : ℕ → CdxResp) (retryCount maxRetries : ℕ) : GetSnapshotsOut :=
  getSnapshotsGo env maxRetries (maxRetries + 1 - retryCount) retryCount

end WaybackClient

/-- Red-flag severity levels used by the topic analyzer and the risk
aggregator. -/
inductive Severity where
  | low : Severity
  | medium : Severity
  | high : Severity
deriving DecidableEq, Repr

namespace TopicAnalyzer

/-!
Embedding of topicAnalyzer.js.  `extractTopics` is effectful (HTML
parsing); its output per capture is the input of the model.  Only the
fields read by the similarity computation and the red-flag detection are
kept (`metaKeywords`, `ogTitle` and `ogDescription` are extracted by the
source but never read downstream); `headings` keeps the heading text
only, because the level tag is never read either.
-/

/-- The topic summary of one capture, as produced by `extractTopics`. -/
structure Topics where
  title : Str
  headings : List Str
  metaDescription : Str
  contentWords : List Str
deriving DecidableEq, Repr

/-- Increment the frequency entry of `w`, or append a fresh entry;
insertion order is preserved like a JavaScript object with string
keys. -/
def bumpFreq : List (Str × ℕ) → Str → List (Str × ℕ)
  | [], w => [(w, 1)]
  | (x, n) :: rest, w =>
    if x == w then (x, n + 1) :: rest else (x, n) :: bumpFreq rest w

/-- The `words.forEach` frequency accumulation of `extractKeywords`
(topicAnalyzer.js lines 82-89): keep words that are nonempty and longer
than 3 characters. -/
def buildFreq : List Str → List (Str × ℕ) → List (Str × ℕ)
  | [], acc => acc
  | w :: rest, acc =>
    if !w.isEmpty && decide (3 < w.length) then bumpFreq acc w |> buildFreq rest
    else buildFreq rest acc

/-- `extractKeywords(words, topN)` (lines 82-95): frequency map, sorted
by descending frequency (stable, like the V8 array sort) and truncated
to `topN`.  (`Object.entries` hoists integer-like keys first; that only
permutes ties among distinct words and no claim depends on tie order.) -/
def extractKeywords (words : List Str) (topN : ℕ) : List (Str × ℕ) :=
  ((buildFreq words []).mergeSort (fun a b => b.2 ≤ a.2)).take topN

/-- Split on whitespace runs.  JavaScript `split(/\s+/)` can also emit
one leading empty string, but every caller filters by a minimum length,
so dropping empty fragments is equivalent. -/
def splitWsGo (cur : Str) : Str → List Str
  | [] => if cur.isEmpty then [] else [cur.reverse]
  | c :: rest =>
    if c.isWhitespace then
      (if cur.isEmpty then splitWsGo [] rest else cur.reverse :: splitWsGo [] rest)
    else splitWsGo (c :: cur) rest

/-- `text.split(/\s+/)`. -/
def splitWs (s : Str) : List Str := splitWsGo [] s

/-- `calculateTextSimilarity` (lines 145-153): Jaccard index of the sets
of lowercased words longer than 2 characters, scaled to 0-100. -/
def calculateTextSimilarity (t1 t2 : Str) : ℚ :=
  let words1 := ((splitWs (lowerStr t1)).filter (fun w => decide (2 < w.length))).toFinset
  let words2 := ((splitWs (lowerStr t2)).filter (fun w => decide (2 < w.length))).toFinset
  let inter := words1 ∩ words2
  let union := words1 ∪ words2
  if 0 < union.card then (inter.card : ℚ) / union.card * 100 else 0

/-- `calculateArraySimilarity` (lines 158-166): Jaccard index of the two
element sets, scaled to 0-100. -/
def calculateArraySimilarity (arr1 arr2 : List Str) : ℚ :=
  let set1 := arr1.toFinset
  let set2 := arr2.toFinset
  let inter := set1 ∩ set2
  let union := set1 ∪ set2
  if 0 < union.card then (inter.card : ℚ) / union.card * 100 else 0

/-- `calculateTopicSimilarity(topics1, topics2)` (lines 103-140): up to
four factor similarities - titles, headings, meta descriptions, top-20
content keywords - each computed only when both sides have data; the
result is the rounded mean of the computed factors, `0` when none is
computable. -/
def calculateTopicSimilarity (t1 t2 : Topics) : ℤ :=
  let pairs : List ℚ :=
    (if !t1.title.isEmpty && !t2.title.isEmpty then
      [calculateTextSimilarity t1.title t2.title] else []) ++
    (if !t1.headings.isEmpty && !t2.headings.isEmpty then
      [calculateArraySimilarity (t1.headings.map lowerStr) (t2.headings.map lowerStr)] else []) ++
    (if !t1.metaDescription.isEmpty && !t2.metaDescription.isEmpty then
      [calculateTextSimilarity t1.metaDescription t2.metaDescription] else []) ++
    (if !t1.contentWords.isEmpty && !t2.contentWords.isEmpty then
      [calculateArraySimilarity ((extractKeywords t1.contentWords 20).map Prod.fst)
        ((extractKeywords t2.contentWords 20).map Prod.fst)] else [])
  if 0 < pairs.length then jround (pairs.sum / pairs.length) else 0

/-- The kind of a red flag (the `type` field; messages are not
modelled). -/
inductive FlagKind where
  | missing_title : FlagKind
  | suspicious_keyword : Str → FlagKind
  | major_topic_shift : FlagKind
  | unstable_topics : FlagKind
  | missing_meta : FlagKind
deriving DecidableEq, Repr

/-- One red flag: kind and severity. -/
structure RedFlag where
  kind : FlagKind
  severity : Severity
deriving DecidableEq, Repr

/-- The fixed suspicious-keyword list of `detectRedFlags` (line 187). -/
def suspiciousKeywords : List Str :=
  ["casino".toList, "poker".toList, "viagra".toList, "loan".toList,
   "payday".toList, "free money".toList, "get rich".toList]

/-- The similarities of chronologically adjacent elements, in order:
the loop `for (i = 1; i < n; i++) sim(a[i-1], a[i])`. -/
def pairSims : List Topics → List ℤ
  | a :: b :: rest => calculateTopicSimilarity a b :: pairSims (b :: rest)
  | _ => []

/-- `detectRedFlags(topics, history)` (lines 174-244): short or missing
title (medium); one high flag per suspicious keyword occurring in
title, description or headings; major topic shift against the most
recent history entry when similarity is below 30 (high); unstable
topics when more than half of the adjacent history pairs have
similarity below 40 (high); short or missing meta description (low). -/
def detectRedFlags (topics : Topics) (history : List Topics) : List RedFlag :=
  let allText := lowerStr (topics.title ++ [' '] ++ topics.metaDescription ++ [' '] ++
    List.intercalate [' '] topics.headings)
  (if topics.title.isEmpty || decide (topics.title.length < 10) then
    [⟨.missing_title, .medium⟩] else []) ++
  (suspiciousKeywords.filterMap fun kw =>
    if HtmlParser.includes allText kw then some ⟨.suspicious_keyword kw, .high⟩ else none) ++
  (match history.getLast? with
   | none => []
   | some prev =>
     if calculateTopicSimilarity topics prev < 30 then [⟨.major_topic_shift, .high⟩] else []) ++
  (if decide (2 < history.length) then
    (let shifts := (pairSims history).countP (fun sim => decide (sim < 40))
     if (history.length : ℚ) / 2 < (shifts : ℚ) then [⟨.unstable_topics, .high⟩] else [])
   else []) ++
  (if topics.metaDescription.isEmpty || decide (topics.metaDescription.length < 50) then
    [⟨.missing_meta, .low⟩] else [])

/-- The result of `analyzeTopicStability` (the `topicHistory` and
`latestTopics` echo fields are presentation only and not modelled). -/
structure TopicResult where
  snapshotsAnalyzed : ℕ
  stabilityScore : Option ℤ
  redFlags : List RedFlag
  mainTopics : List Str
deriving DecidableEq, Repr

/-- `analyzeTopicStability(snapshots)` (lines 251-313).  The extraction
loop keeps, in order, the captures that have HTML; its outcome is the
input `snapshots : List (Option Topics)` (`none` for a capture without
HTML).  With no analyzable capture the stability score is `null`; with
exactly one it is `100` (no comparisons); otherwise it is the rounded
mean of the adjacent-pair similarities.  Red flags are computed from the
latest capture against the full prior history. -/
def analyzeTopicStability (snapshots : List (Option Topics)) : TopicResult :=
  let topicAnalyses := snapshots.filterMap id
  match topicAnalyses with
  | [] => ⟨0, none, [], []⟩
  | a :: rest =>
    let l := a :: rest
    let sims := pairSims l
    let stabilityScore : ℤ :=
      if 0 < sims.length then jround ((sims.sum : ℚ) / sims.length) else 100
    let latest := l.getLast (List.cons_ne_nil a rest)
    let history := l.dropLast
    ⟨l.length, some stabilityScore, detectRedFlags latest history,
      (extractKeywords latest.contentWords 10).map Prod.fst⟩

/-- Comparison-side predicate for claim C10: a capture with no
extractable content (empty title, headings, meta description and
content words). -/
def noContent (t : Topics) : Prop :=
  t.title = [] ∧ t.headings = [] ∧ t.metaDescription = [] ∧ t.contentWords = []

instance (t : Topics) : Decidable (noContent t) := by
  unfold noContent
  infer_instance

end TopicAnalyzer

namespace WaybackAdapter

/-- The recommendation emitted by `analyzeDomainComplete`. -/
inductive Recommendation where
  | AVOID : Recommendation
  | CAUTION : Recommendation
  | REVIEW : Recommendation
  | BUY : Recommendation
deriving DecidableEq, Repr

/-- The risk level emitted by `analyzeDomainComplete`. -/
inductive RiskLevel where
  | LOW : RiskLevel
  | MEDIUM : RiskLevel
  | HIGH : RiskLevel
deriving DecidableEq, Repr

/-- `Math.min(100, Math.max(0, q))`. -/
def clamp100 (q : ℚ) : ℚ := min 100 (max 0 q)

/-- Per-flag penalty: high 15, medium 8, anything else 3 (lines 539-543). -/
def severityPenalty : Severity → ℚ
  | .high => 15
  | .medium => 8
  | .low => 3

/-- The red-flag penalty of lines 537-546: sum of per-flag penalties,
capped at 30; `0` when the flag list is empty. -/
def redFlagPenaltyOf (redFlags : List Severity) : ℚ :=
  if redFlags.isEmpty then 0
  else min 30 (redFlags.foldl (fun sum flag => sum + severityPenalty flag) 0)

/-- `v !== null && isFinite(v) && v >= b` for an optional finite number:
the guard shape used by the recommendation chain. -/
def optGE (v : Option ℚ) (b : ℚ) : Bool :=
  match v with
  | some q => decide (b ≤ q)
  | none => false

/-- `v !== null && v > b` for an optional finite number. -/
def optGT (v : Option ℚ) (b : ℚ) : Bool :=
  match v with
  | some q => decide (b < q)
  | none => false

/-- Output of the risk-aggregation step of `analyzeDomainComplete`
(lines 493-634).  The four `...Risk` fields record the derived risk
factors (`none` when the source metric was unavailable). -/
structure RiskAssessment where
  spamRisk : Option ℚ
  backlinkRisk : Option ℚ
  metricsRisk : Option ℚ
  topicRisk : Option ℚ
  redFlagPenalty : ℚ
  overallRiskScore : ℤ
  recommendation : Recommendation
  riskLevel : RiskLevel
deriving DecidableEq, Repr

/-!
The risk aggregation consumes four numbers out of the sub-analysis
results, each guarded in the source by
`typeof x === 'number' && isFinite(x)`; an input is modelled as
`some q` when that guard passes (a finite number `q`) and `none`
otherwise (`null`, `undefined`, `NaN` or a missing field).
The `recommendationReason` strings and the status-callback payloads are
not modelled; no claim mentions them.
-/

/-- The recommendation chain of `analyzeDomainComplete` (part_001 lines
567-616): the first-match-wins if cascade followed by the two
additional-factor demotions. -/
def recommendationChain (spamRisk metricsRisk backlinkRisk : Option ℚ)
    (redFlagPenalty : ℚ) (validRiskScore : ℤ) : Recommendation :=
  let rec0 : Recommendation :=
    if optGE spamRisk 80 then .AVOID
    else if optGE spamRisk 50 then .AVOID
    else if redFlagPenalty ≥ 20 then .AVOID
    else if validRiskScore ≥ 70 then .AVOID
    else if validRiskScore ≥ 55 then .CAUTION
    else if validRiskScore ≥ 40 then .REVIEW
    else if validRiskScore ≥ 25 then .REVIEW
    else .BUY
  -- additional factors (lines 604-616): a BUY is demoted to REVIEW
  let rec1 : Recommendation :=
    if optGT metricsRisk 70 then
      (if rec0 = .BUY then .REVIEW else rec0)
    else rec0
  let rec2 : Recommendation :=
    if optGT backlinkRisk 60 then
      (if rec1 = .BUY then .REVIEW else rec1)
    else rec1
  rec2

/-- The risk-level determination of `analyzeDomainComplete` (part_001
lines 619-631), including the final AVOID-but-LOW fix-up. -/
def riskLevelOf (validRiskScore : ℤ) (rec : Recommendation) : RiskLevel :=
  let riskLevel0 : RiskLevel :=
    if validRiskScore ≥ 70 ∨ rec = .AVOID then .HIGH
    else if validRiskScore ≥ 40 ∨ rec = .CAUTION then .MEDIUM
    else .LOW
  if rec = .AVOID ∧ riskLevel0 = .LOW then .HIGH else riskLevel0

/-- The risk-aggregation step of `analyzeDomainComplete` (part_001 lines
493-634): risk factors, weighted average, red-flag penalty, clamping,
recommendation chain with the two BUY demotions, and risk level. -/
def computeRiskAssessment (maxSpamScore avgQualityScore overallQualityScore
    stabilityScore : Option ℚ) (redFlags : List Severity) : RiskAssessment :=
  let spamRisk := maxSpamScore.map (fun s => clamp100 (s * 10))
  let backlinkRisk := avgQualityScore.map (fun q => clamp100 (100 - q))
  let metricsRisk := overallQualityScore.map (fun q => clamp100 (100 - q))
  let topicRisk := stabilityScore.map (fun q => clamp100 (100 - q))
  -- riskFactors push order: spam, backlink, metrics, topic; each pushed
  -- when present and nonnegative (the clamp makes the latter vacuous,
  -- but the source tests it, so we keep the test)
  let riskFactors : List (ℚ × ℚ) :=
    (match spamRisk with
      | some v => if v ≥ 0 then [(v, 0.35)] else []
      | none => []) ++
    (match backlinkRisk with
      | some v => if v ≥ 0 then [(v, 0.25)] else []
      | none => []) ++
    (match metricsRisk with
      | some v => if v ≥ 0 then [(v, 0.25)] else []
      | none => []) ++
    (match topicRisk with
      | some v => if v ≥ 0 then [(v, 0.15)] else []
      | none => [])
  let weightedSum : ℚ := riskFactors.foldl (fun s f => s + f.1 * f.2) 0
  let totalWeight : ℚ := riskFactors.foldl (fun s f => s + f.2) 0
  let redFlagPenalty := redFlagPenaltyOf redFlags
  let score1 : ℤ :=
    if totalWeight > 0 then jround (weightedSum / totalWeight + redFlagPenalty)
    else match spamRisk with
      | some s => jround (s + redFlagPenalty)
      | none => 0
  -- cap at 100 and floor at 0 (line 557); the isFinite/isNaN fallback of
  -- lines 560-565 cannot fire in exact rational arithmetic
  let validRiskScore : ℤ := min 100 (max 0 score1)
  let rec2 : Recommendation :=
    recommendationChain spamRisk metricsRisk backlinkRisk redFlagPenalty validRiskScore
  let riskLevel : RiskLevel := riskLevelOf validRiskScore rec2
  { spamRisk := spamRisk
    backlinkRisk := backlinkRisk
    metricsRisk := metricsRisk
    topicRisk := topicRisk
    redFlagPenalty := redFlagPenalty
    overallRiskScore := validRiskScore
    recommendation := rec2
    riskLevel := riskLevel }

/-- Modelled from the amended claim text: first-match-wins precedence
(spam-risk at least 80 or at least 50 gives AVOID; red-flag penalty at
least 20 gives AVOID; overall risk score at least 70 gives AVOID, at
least 55 CAUTION, at least 40 or at least 25 REVIEW; otherwise BUY),
except that a BUY is demoted to REVIEW when the metrics risk factor
exceeds 70 or the backlink risk factor exceeds 60. -/
def recommendationSpec (spamRisk backlinkRisk metricsRisk : Option ℚ)
    (redFlagPenalty : ℚ) (score : ℤ) : Recommendation :=
  let base : Recommendation :=
    if optGE spamRisk 80 then .AVOID
    else if optGE spamRisk 50 then .AVOID
    else if redFlagPenalty ≥ 20 then .AVOID
    else if score ≥ 70 then .AVOID
    else if score ≥ 55 then .CAUTION
    else if score ≥ 40 then .REVIEW
    else if score ≥ 25 then .REVIEW
    else .BUY
  if base = .BUY ∧ (optGT metricsRisk 70 ∨ optGT backlinkRisk 60) then .REVIEW
  else base

/-- Terminal status values of the spam-only pipeline
(`analyzeDomainForSpam`). -/
inductive SpamStatus where
  | UNAVAILABLE : SpamStatus
  | NO_SNAPSHOTS : SpamStatus
  | SPAM : SpamStatus
  | SUSPICIOUS : SpamStatus
  | CLEAN : SpamStatus
deriving DecidableEq, Repr

/-- The mutable state of the per-capture loop of `analyzeDomainForSpam`
(part_001 lines 158-165). -/
structure SpamLoopState where
  spamSnapshots : ℕ
  totalSpamScore : ℕ
  maxSpamScore : ℕ
  successfullyAnalyzed : ℕ
  failedSnapshots : ℕ
  foundWords : List (Str × ℕ)
  firstSpamDate : Option Str
  snapshotErrors : List Str
deriving DecidableEq, Repr

/-- The initial loop state: all counters zero. -/
def initSpamLoopState : SpamLoopState := ⟨0, 0, 0, 0, 0, [], none, []⟩

/-- `allFoundStopWords.set(word, (get(word) || 0) + count)`: the word
map is an insertion-ordered association list, like a JavaScript Map. -/
def mergeFound : List (Str × ℕ) → HtmlParser.Finding → List (Str × ℕ)
  | [], f => [(f.word, f.count)]
  | (w, c) :: rest, f =>
    if w == f.word then (w, c + f.count) :: rest else (w, c) :: mergeFound rest f

/-- One iteration of the capture loop (part_001 lines 168-231).  A
capture is `(timestamp, outcome)`: `none` when fetching or analyzing it
threw (timeout, fetch failure, empty HTML) - the catch block records the
error and skips the capture; `some allText` carries the combined text
corpus that `analyzeHtmlForSpam` hands to `checkStopWords`. -/
def spamStep (stopWords : List Str) (st : SpamLoopState) :
    Str × Option Str → SpamLoopState
  | (ts, none) =>
    { st with
      failedSnapshots := st.failedSnapshots + 1
      snapshotErrors := st.snapshotErrors ++ [ts] }
  | (ts, some allText) =>
    let analysis := HtmlParser.checkStopWords allText stopWords
    let st2 :=
      { st with
        successfullyAnalyzed := st.successfullyAnalyzed + 1
        maxSpamScore := max st.maxSpamScore analysis.score }
    if 0 < analysis.count then
      { st2 with
        spamSnapshots := st2.spamSnapshots + 1
        totalSpamScore := st2.totalSpamScore + analysis.score
        foundWords := analysis.found.foldl mergeFound st2.foundWords
        firstSpamDate :=
          match st2.firstSpamDate with
          | none => some ts
          | some d => some d }
    else st2

/-- The result object of `analyzeDomainForSpam` (scores are naturals,
so `Math.round(x * 10) / 10` is modelled exactly; `lastMessage` and the
`domain` echo are presentation only and each failure entry keeps its
capture timestamp). -/
structure SpamAnalysisResult where
  status : SpamStatus
  snapshotsFound : ℕ
  snapshotsAnalyzed : ℕ
  failedSnapshots : ℕ
  spamSnapshots : ℕ
  maxSpamScore : ℕ
  avgSpamScore : ℚ
  spamDetected : Bool
  totalStopWordsFound : ℕ
  stopWordsFound : List (Str × ℕ)
  firstSpamDate : Option Str
  snapshotErrors : List Str
deriving DecidableEq, Repr

/-- `analyzeDomainForSpam` after a successful capture listing (part_001
lines 137-281): empty listing gives NO_SNAPSHOTS; otherwise the loop
runs over every capture, failures are recorded and skipped, and the
final status is UNAVAILABLE when nothing was analyzed, else SPAM,
SUSPICIOUS or CLEAN by the max-score thresholds 8 and 5.  (The earlier
CDX-failure branch, lines 117-135, returns UNAVAILABLE before any
capture exists and is outside this model.) -/
def analyzeDomainForSpam (stopWords : List Str)
    (snapshots : List (Str × Option Str)) : SpamAnalysisResult :=
  if snapshots.isEmpty then
    ⟨.NO_SNAPSHOTS, 0, 0, 0, 0, 0, 0, false, 0, [], none, []⟩
  else
    let st := snapshots.foldl (spamStep stopWords) initSpamLoopState
    let avgSpamScore : ℚ :=
      if 0 < st.spamSnapshots then (st.totalSpamScore : ℚ) / st.spamSnapshots else 0
    let finalStatus : SpamStatus :=
      if st.successfullyAnalyzed = 0 then .UNAVAILABLE
      else if 8 ≤ st.maxSpamScore then .SPAM
      else if 5 ≤ st.maxSpamScore then .SUSPICIOUS
      else .CLEAN
    { status := finalStatus
      snapshotsFound := snapshots.length
      snapshotsAnalyzed := st.successfullyAnalyzed
      failedSnapshots := st.failedSnapshots
      spamSnapshots := st.spamSnapshots
      maxSpamScore := st.maxSpamScore
      avgSpamScore := ((jround (avgSpamScore * 10) : ℤ) : ℚ) / 10
      spamDetected := decide (0 < st.spamSnapshots)
      totalStopWordsFound := st.foundWords.length
      stopWordsFound := st.foundWords.mergeSort (fun a b => b.2 ≤ a.2)
      firstSpamDate := st.firstSpamDate
      snapshotErrors := st.snapshotErrors }

/-- Comparison side for claim C6: the text corpora of the successfully
fetched and analyzed captures, in order. -/
def successTexts (snapshots : List (Str × Option Str)) : List Str :=
  snapshots.filterMap Prod.snd

/-- Comparison side for claim C6: the maximum spam score over the
successfully analyzed captures (0 when none). -/
def maxScoreOf (stopWords : List Str) (snapshots : List (Str × Option Str)) : ℕ :=
  ((successTexts snapshots).map
    (fun t => (HtmlParser.checkStopWords t stopWords).score)).foldr max 0

/-- One entry of the `analyzeDomainsForSpam` results array, restricted
to the fields the sorting step and the placeholder construction read or
write. -/
structure SpamBatchEntry where
  domain : Str
  status : SpamStatus
  error : Option Str
  snapshotsFound : ℕ
  snapshotsAnalyzed : ℕ
deriving DecidableEq, Repr

/-- Terminal status values of the full pipeline
(`analyzeDomainComplete`). -/
inductive CompleteStatus where
  | COMPLETE : CompleteStatus
  | NO_SNAPSHOTS : CompleteStatus
  | UNAVAILABLE : CompleteStatus
deriving DecidableEq, Repr

/-- One entry of the `analyzeDomainsComplete` results array, restricted
to the fields the sorting step and the placeholder construction read or
write. -/
structure CompleteBatchEntry where
  domain : Str
  status : CompleteStatus
  error : Option Str
deriving DecidableEq, Repr

/-- `domains.map(d => d.trim()).filter(d => d.length > 0)`: the trimmed
non-empty input domains, in input order. -/
def domainListOf (domains : List Str) : List Str :=
  (domains.map trimStr).filter (fun d => !d.isEmpty)

/-- The placeholder of part_001 lines 395-401. -/
def placeholderSpam (domain : Str) : SpamBatchEntry :=
  ⟨domain, .UNAVAILABLE, some "Analysis not completed".toList, 0, 0⟩

/-- The placeholder of part_001 lines 764-768. -/
def placeholderComplete (domain : Str) : CompleteBatchEntry :=
  ⟨domain, .UNAVAILABLE, some "Analysis not completed".toList⟩

/-- The result-sorting step of `analyzeDomainsForSpam` (part_001 lines
393-404): for each input domain, the first recorded result with that
domain, or the UNAVAILABLE placeholder. -/
def sortResultsSpam (domains : List Str) (results : List SpamBatchEntry) :
    List SpamBatchEntry :=
  (domainListOf domains).map fun domain =>
    match results.find? (fun r => r.domain == domain) with
    | some r => r
    | none => placeholderSpam domain

/-- The result-sorting step of `analyzeDomainsComplete` (part_001 lines
762-769). -/
def sortResultsComplete (domains : List Str) (results : List CompleteBatchEntry) :
    List CompleteBatchEntry :=
  (domainListOf domains).map fun domain =>
    match results.find? (fun r => r.domain == domain) with
    | some r => r
    | none => placeholderComplete domain

end WaybackAdapter

-- ===================== THEOREMS =====================

/-- Claim C1 (code bug witness): `getDomainMetrics` is supposed to average
exactly the successfully obtained sub-metrics, skipping unavailable ones.
When the domain-rank lookup fails outright (returns `null`, so the
`domainRating` field stays `undefined`), the strict `!== null` check still
counts it as a factor and `undefined * 2` poisons the average: with
domain authority 50 and trust flow 20 the returned `overallQualityScore`
is `NaN`, not a number in [0,100].  By contrast, when the lookup succeeds
but carries a falsy rank (`domainRating = null`) the skip works and the
result is the mean 35 of the two obtained sub-metrics. -/
theorem c1_overallQualityScore_nan_on_failed_rank_lookup :
    (MetricsAnalyzer.getDomainMetrics none (some 50) (some (20, 13))).overallQualityScore
      = JsVal.nan ∧
    (MetricsAnalyzer.getDomainMetrics (some none) (some 50) (some (20, 13))).overallQualityScore
      = JsVal.num 35 := by
  refine ⟨rfl, ?_⟩
  simp [MetricsAnalyzer.getDomainMetrics, jsAdd, jsMin, jsMul, jsDiv, jsRound,
    jround, JsVal.toNumber]
  norm_num

/-- Helper: composing the two sequential BUY demotions (metrics then
backlink) is the same as demoting once on the disjunction. -/
theorem buy_demotion_pair (r : WaybackAdapter.Recommendation) (p q : Bool) :
    (if q then
      (if (if p then (if r = .BUY then .REVIEW else r) else r) = .BUY then .REVIEW
       else (if p then (if r = .BUY then .REVIEW else r) else r))
     else (if p then (if r = .BUY then .REVIEW else r) else r))
      = (if r = .BUY ∧ (p ∨ q) then .REVIEW else r) := by
  cases r <;> cases p <;> cases q <;> simp

/-- Claim C2 counterexample: an analysis with spam risk 0 (below 50),
red-flag penalty 0 (below 20) and overall risk score 18 (below 25) does
not receive recommendation BUY: the metrics risk factor 71 exceeds 70,
so the additional-factors step demotes the BUY to REVIEW. -/
theorem c2_counterexample_buy_demoted :
    (WaybackAdapter.computeRiskAssessment (some 0) (some 100) (some 29) (some 100) []).spamRisk
        = some 0 ∧
    (WaybackAdapter.computeRiskAssessment (some 0) (some 100) (some 29) (some 100) []).redFlagPenalty
        = 0 ∧
    (WaybackAdapter.computeRiskAssessment (some 0) (some 100) (some 29) (some 100) []).overallRiskScore
        = 18 ∧
    (WaybackAdapter.computeRiskAssessment (some 0) (some 100) (some 29) (some 100) []).recommendation
        = WaybackAdapter.Recommendation.REVIEW := by
  refine ⟨?_, ?_, ?_, ?_⟩ <;>
    simp [WaybackAdapter.computeRiskAssessment, WaybackAdapter.clamp100,
      WaybackAdapter.redFlagPenaltyOf, WaybackAdapter.recommendationChain,
      WaybackAdapter.optGE, WaybackAdapter.optGT, jround] <;>
    norm_num

/-- Claim C2 (amended): the recommendation of `analyzeDomainComplete` is
the first-match-wins precedence (spam-risk at least 80 gives AVOID; at
least 50 AVOID; red-flag penalty at least 20 AVOID; overall risk score at
least 70 AVOID; at least 55 CAUTION; at least 40 or at least 25 REVIEW;
otherwise BUY) followed by one demotion: a BUY becomes REVIEW when the
metrics risk factor exceeds 70 or the backlink risk factor exceeds 60. -/
theorem c2_recommendation_precedence (ms aq oq st : Option ℚ) (fl : List Severity) :
    (WaybackAdapter.computeRiskAssessment ms aq oq st fl).recommendation
      = WaybackAdapter.recommendationSpec
          (WaybackAdapter.computeRiskAssessment ms aq oq st fl).spamRisk
          (WaybackAdapter.computeRiskAssessment ms aq oq st fl).backlinkRisk
          (WaybackAdapter.computeRiskAssessment ms aq oq st fl).metricsRisk
          (WaybackAdapter.computeRiskAssessment ms aq oq st fl).redFlagPenalty
          (WaybackAdapter.computeRiskAssessment ms aq oq st fl).overallRiskScore := by
  simp only [WaybackAdapter.computeRiskAssessment, WaybackAdapter.recommendationChain,
    WaybackAdapter.recommendationSpec]
  exact (buy_demotion_pair _ _ _).symm ▸ rfl

/-- Claim C3: for every combination of available or unavailable risk
factors and every red-flag list, the overall risk score returned by the
risk aggregation of `analyzeDomainComplete` is an integer in [0, 100],
and whenever the recommendation is AVOID the risk level is HIGH. -/
theorem c3_riskScore_bounds_and_avoid_is_high (ms aq oq st : Option ℚ)
    (fl : List Severity) :
    0 ≤ (WaybackAdapter.computeRiskAssessment ms aq oq st fl).overallRiskScore ∧
    (WaybackAdapter.computeRiskAssessment ms aq oq st fl).overallRiskScore ≤ 100 ∧
    ((WaybackAdapter.computeRiskAssessment ms aq oq st fl).recommendation
        = WaybackAdapter.Recommendation.AVOID →
      (WaybackAdapter.computeRiskAssessment ms aq oq st fl).riskLevel
        = WaybackAdapter.RiskLevel.HIGH) := by
  refine ⟨?_, ?_, ?_⟩
  · simp only [WaybackAdapter.computeRiskAssessment]
    exact le_min (by norm_num) (le_max_left 0 _)
  · simp only [WaybackAdapter.computeRiskAssessment]
    exact min_le_left _ _
  · intro h
    simp only [WaybackAdapter.computeRiskAssessment] at h ⊢
    rw [h]
    simp [WaybackAdapter.riskLevelOf]

/-- Witness for C3 at a concrete input: maximum spam score 10 yields spam
risk 100, hence recommendation AVOID, and the theorem forces risk level
HIGH; the score bound also holds there. -/
theorem c3_witness :
    (WaybackAdapter.computeRiskAssessment (some 10) none none none []).riskLevel
        = WaybackAdapter.RiskLevel.HIGH ∧
    0 ≤ (WaybackAdapter.computeRiskAssessment (some 10) none none none []).overallRiskScore :=
  ⟨(c3_riskScore_bounds_and_avoid_is_high (some 10) none none none []).2.2
      (by simp [WaybackAdapter.computeRiskAssessment, WaybackAdapter.clamp100,
            WaybackAdapter.recommendationChain, WaybackAdapter.optGE, WaybackAdapter.optGT,
            WaybackAdapter.redFlagPenaltyOf, jround]
          norm_num),
   (c3_riskScore_bounds_and_avoid_is_high (some 10) none none none []).1⟩

namespace HtmlParser

/-- `includes` agrees with the infix relation. -/
theorem includes_iff (t w : Str) : includes t w = true ↔ w <:+: t := by
  induction t with
  | nil => simp [includes, List.isEmpty_iff, List.infix_nil]
  | cons c rest ih =>
    simp [includes, Bool.or_eq_true, List.isPrefixOf_iff_prefix, ih, List.infix_cons_iff]

/-- The fuel of `countOccsGo` is irrelevant as long as it bounds the
length of the scanned text. -/
theorem countOccsGo_fuel (w : Str) : ∀ (f1 f2 : ℕ) (t : Str),
    t.length ≤ f1 → t.length ≤ f2 → countOccsGo w f1 t = countOccsGo w f2 t := by
  intro f1
  induction f1 with
  | zero =>
    intro f2 t h1 _
    have ht : t = [] := List.eq_nil_of_length_eq_zero (Nat.le_zero.mp h1)
    subst ht
    cases f2 <;> simp [countOccsGo]
  | succ n ih =>
    intro f2 t h1 h2
    match t with
    | [] => cases f2 <;> simp [countOccsGo]
    | c :: rest =>
      cases f2 with
      | zero => simp at h2
      | succ m =>
        simp only [countOccsGo]
        by_cases hg : (!w.isEmpty && w.isPrefixOf (c :: rest)) = true
        · rw [if_pos hg, if_pos hg]
          rw [Bool.and_eq_true] at hg
          have hw : w ≠ [] := by
            have h' := hg.1
            simp only [Bool.not_eq_true'] at h'
            exact fun he => by simp [he] at h'
          have hwl : 1 ≤ w.length := List.length_pos.mpr hw
          simp only [List.length_cons] at h1 h2
          have hd1 : ((c :: rest).drop w.length).length ≤ n := by
            simp only [List.length_drop, List.length_cons]
            omega
          have hd2 : ((c :: rest).drop w.length).length ≤ m := by
            simp only [List.length_drop, List.length_cons]
            omega
          exact congrArg (1 + ·) (ih m _ hd1 hd2)
        · rw [if_neg hg, if_neg hg]
          simp only [List.length_cons] at h1 h2
          exact ih m rest (by omega) (by omega)

/-- `countOccs` on the empty text. -/
theorem countOccs_nil (w : Str) : countOccs w [] = 0 := rfl

/-- Unfolding `countOccs` one scan position at a time. -/
theorem countOccs_cons (w : Str) (c : Char) (rest : Str) :
    countOccs w (c :: rest) =
      if !w.isEmpty && w.isPrefixOf (c :: rest) then
        1 + countOccs w ((c :: rest).drop w.length)
      else countOccs w rest := by
  show countOccsGo w (c :: rest).length (c :: rest) = _
  simp only [List.length_cons, countOccsGo]
  by_cases hg : (!w.isEmpty && w.isPrefixOf (c :: rest)) = true
  · rw [if_pos hg, if_pos hg]
    rw [Bool.and_eq_true] at hg
    have hw : w ≠ [] := by
      have h' := hg.1
      simp only [Bool.not_eq_true'] at h'
      exact fun he => by simp [he] at h'
    have hwl : 1 ≤ w.length := List.length_pos.mpr hw
    congr 1
    apply countOccsGo_fuel
    · simp only [List.length_drop, List.length_cons]
      omega
    · exact le_rfl
  · rw [if_neg hg, if_neg hg]
    rfl

/-- A pattern longer than the text never matches. -/
theorem countOccs_of_lt (w : Str) : ∀ (t : Str), t.length < w.length → countOccs w t = 0 := by
  intro t
  induction t with
  | nil => intro _; rfl
  | cons c rest ih =>
    intro h
    rw [countOccs_cons]
    have hp : w.isPrefixOf (c :: rest) = false := by
      cases hb : w.isPrefixOf (c :: rest) with
      | false => rfl
      | true =>
        have := (List.isPrefixOf_iff_prefix.mp hb).length_le
        simp only [List.length_cons] at this h
        omega
    rw [hp]
    simp only [Bool.and_false, Bool.false_eq_true, if_false]
    exact ih (by simp only [List.length_cons] at h; omega)

/-- A prefix that fits inside `t` is insensitive to appending. -/
theorem prefix_of_append_iff (w t s : Str) (h : w.length ≤ t.length) :
    (w <+: t ++ s) ↔ (w <+: t) := by
  constructor
  · intro hp
    rw [List.prefix_iff_eq_take] at hp ⊢
    rwa [List.take_append_of_le_length h] at hp
  · intro hp
    exact hp.trans (List.prefix_append t s)

/-- Auxiliary form of append monotonicity for `countOccs`, with an
explicit bound for the induction. -/
theorem countOccs_le_append_aux (w : Str) : ∀ (n : ℕ) (t s : Str), t.length ≤ n →
    countOccs w t ≤ countOccs w (t ++ s) := by
  intro n
  induction n with
  | zero =>
    intro t s h
    have ht : t = [] := List.eq_nil_of_length_eq_zero (Nat.le_zero.mp h)
    subst ht
    simp [countOccs_nil]
  | succ n ih =>
    intro t s ht
    match t with
    | [] => simp [countOccs_nil]
    | c :: rest =>
      rw [countOccs_cons, show (c :: rest) ++ s = c :: (rest ++ s) from rfl, countOccs_cons]
      simp only [List.length_cons] at ht
      by_cases hL : (!w.isEmpty && w.isPrefixOf (c :: rest)) = true
      · have hL' := hL
        rw [Bool.and_eq_true] at hL'
        have hne := hL'.1
        have hw : w ≠ [] := by
          have h' := hne
          simp only [Bool.not_eq_true'] at h'
          exact fun he => by simp [he] at h'
        have hwl : 1 ≤ w.length := List.length_pos.mpr hw
        have hpre : w <+: (c :: rest) := List.isPrefixOf_iff_prefix.mp hL'.2
        have hlen : w.length ≤ (c :: rest).length := hpre.length_le
        have hR : (!w.isEmpty && w.isPrefixOf (c :: (rest ++ s))) = true := by
          rw [Bool.and_eq_true]
          refine ⟨hne, ?_⟩
          rw [List.isPrefixOf_iff_prefix]
          have : w <+: (c :: rest) ++ s := hpre.trans (List.prefix_append _ _)
          simpa using this
        rw [if_pos hL, if_pos hR]
        have hdrop : (c :: (rest ++ s)).drop w.length = ((c :: rest).drop w.length) ++ s := by
          have := @List.drop_append_of_le_length _ (c :: rest) s w.length hlen
          simpa using this
        rw [hdrop]
        have hdl : ((c :: rest).drop w.length).length ≤ n := by
          simp only [List.length_drop, List.length_cons]
          omega
        exact Nat.add_le_add_left (ih _ s hdl) 1
      · by_cases hR : (!w.isEmpty && w.isPrefixOf (c :: (rest ++ s))) = true
        · rw [if_neg hL, if_pos hR]
          rw [Bool.and_eq_true] at hR
          have hne := hR.1
          have hw : w ≠ [] := by
            have h' := hne
            simp only [Bool.not_eq_true'] at h'
            exact fun he => by simp [he] at h'
          have hpreR : w <+: c :: (rest ++ s) := List.isPrefixOf_iff_prefix.mp hR.2
          have hlong : rest.length + 1 < w.length := by
            by_contra hle
            push_neg at hle
            have hfit : w.length ≤ (c :: rest).length := by simpa using hle
            have : w <+: (c :: rest) := by
              have h' : w <+: (c :: rest) ++ s := by simpa using hpreR
              exact (prefix_of_append_iff w (c :: rest) s hfit).mp h'
            exact hL (by rw [Bool.and_eq_true]; exact ⟨hne, List.isPrefixOf_iff_prefix.mpr this⟩)
          have h0 : countOccs w rest = 0 := countOccs_of_lt w rest (by omega)
          rw [h0]
          exact Nat.zero_le _
        · rw [if_neg hL, if_neg hR]
          exact ih rest s (by omega)

/-- Appending text never decreases the occurrence count. -/
theorem countOccs_le_append (w t s : Str) : countOccs w t ≤ countOccs w (t ++ s) :=
  countOccs_le_append_aux w t.length t s le_rfl

end HtmlParser

namespace HtmlParser

/-- Invariant of the `forEach` accumulation: every finding carries the
occurrence count of its word, the words are pairwise distinct, and the
set of words grows by exactly the matched stop words. -/
theorem buildFound_spec (tl : Str) : ∀ (ws : List Str) (acc : List Finding),
    (∀ f ∈ acc, f.count = countOccs f.word tl) →
    ((acc.map Finding.word).Nodup) →
    (∀ f ∈ buildFound tl ws acc, f.count = countOccs f.word tl) ∧
    ((buildFound tl ws acc).map Finding.word).Nodup ∧
    ((buildFound tl ws acc).map Finding.word).toFinset
      = (acc.map Finding.word).toFinset ∪
        ((ws.map (fun w => trimStr (lowerStr w))).filter
          (fun wl => !wl.isEmpty && includes tl wl)).toFinset := by
  intro ws
  induction ws with
  | nil =>
    intro acc h1 h2
    refine ⟨h1, h2, by simp [buildFound]⟩
  | cons word rest ih =>
    intro acc h1 h2
    simp only [buildFound]
    by_cases hg : (!(trimStr (lowerStr word)).isEmpty && includes tl (trimStr (lowerStr word))) = true
    · rw [if_pos hg]
      by_cases hmem : (acc.any fun item => item.word == trimStr (lowerStr word)) = true
      · rw [if_pos hmem]
        obtain ⟨ha, hb, hc⟩ := ih acc h1 h2
        refine ⟨ha, hb, ?_⟩
        rw [hc]
        have hin : trimStr (lowerStr word) ∈ (acc.map Finding.word).toFinset := by
          simp only [List.any_eq_true] at hmem
          obtain ⟨f, hf, hfw⟩ := hmem
          simp only [List.mem_toFinset, List.mem_map]
          exact ⟨f, hf, by simpa using hfw⟩
        simp only [List.map_cons, List.filter_cons, hg, if_true, List.toFinset_cons]
        apply Finset.ext
        intro x
        simp only [Finset.mem_union, Finset.mem_insert, List.mem_toFinset]
        constructor
        · rintro (h | h)
          · exact Or.inl h
          · exact Or.inr (Or.inr h)
        · rintro (h | h | h)
          · exact Or.inl h
          · exact Or.inl (by simpa [h] using hin)
          · exact Or.inr h
      · rw [if_neg hmem]
        have hnotin : trimStr (lowerStr word) ∉ (acc.map Finding.word) := by
          intro hx
          apply hmem
          simp only [List.any_eq_true]
          obtain ⟨f, hf, hfw⟩ := List.mem_map.mp hx
          exact ⟨f, hf, by simp [hfw]⟩
        have h1' : ∀ f ∈ acc ++ [(⟨trimStr (lowerStr word),
            countOccs (trimStr (lowerStr word)) tl⟩ : Finding)],
            f.count = countOccs f.word tl := by
          intro f hf
          rcases List.mem_append.mp hf with h | h
          · exact h1 f h
          · simp only [List.mem_singleton] at h
            subst h
            rfl
        have h2' : (((acc ++ [(⟨trimStr (lowerStr word),
            countOccs (trimStr (lowerStr word)) tl⟩ : Finding)]).map Finding.word)).Nodup := by
          rw [List.map_append]
          simp only [List.map_cons, List.map_nil]
          rw [List.nodup_append]
          exact ⟨h2, List.nodup_singleton _, by simpa using hnotin⟩
        obtain ⟨ha, hb, hc⟩ := ih _ h1' h2'
        refine ⟨ha, hb, ?_⟩
        rw [hc]
        simp only [List.map_append, List.map_cons, List.map_nil, List.filter_cons, hg, if_true,
          List.toFinset_append, List.toFinset_cons, List.toFinset_nil]
        apply Finset.ext
        intro x
        simp only [Finset.mem_union, Finset.mem_insert, Finset.not_mem_empty, List.mem_toFinset,
          or_false]
        constructor
        · rintro ((h | h) | h)
          · exact Or.inl h
          · exact Or.inr (Or.inl h)
          · exact Or.inr (Or.inr h)
        · rintro (h | h | h)
          · exact Or.inl (Or.inl h)
          · exact Or.inl (Or.inr h)
          · exact Or.inr h
    · rw [if_neg hg]
      obtain ⟨ha, hb, hc⟩ := ih acc h1 h2
      refine ⟨ha, hb, ?_⟩
      rw [hc]
      simp [List.map_cons, List.filter_cons, hg]

/-- Folding the counts is summing them. -/
theorem foldl_add_count : ∀ (l : List Finding) (n : ℕ),
    l.foldl (fun sum item => sum + item.count) n = n + (l.map Finding.count).sum := by
  intro l
  induction l with
  | nil => intro n; simp
  | cons f rest ih =>
    intro n
    simp only [List.foldl_cons, List.map_cons, List.sum_cons, ih]
    omega

/-- Bridge: the score computed by `checkStopWords` is the spec formula
applied to the number of matched stop words and their total occurrence
count. -/
theorem score_eq (text : Str) (sw : List Str) :
    (checkStopWords text sw).score
      = scoreFormula (matchedWordSet text sw).card (totalOccurrences text sw) := by
  by_cases h : (text.isEmpty || sw.isEmpty) = true
  · have hset : matchedWordSet text sw = ∅ := by
      rcases Bool.or_eq_true _ _ |>.mp h with h' | h'
      · have : text = [] := by simpa using h'
        subst this
        apply Finset.ext
        intro x
        simp [matchedWordSet, List.mem_filter, includes, lowerStr]
      · have : sw = [] := by simpa using h'
        subst this
        simp [matchedWordSet]
    simp [checkStopWords, h, hset, scoreFormula, totalOccurrences]
  · obtain ⟨ha, hb, hc⟩ := buildFound_spec (lowerStr text) sw [] (by intro f hf; simp at hf)
      (by simp)
    have hcard : (buildFound (lowerStr text) sw []).length = (matchedWordSet text sw).card := by
      have h1 : (buildFound (lowerStr text) sw []).length
          = ((buildFound (lowerStr text) sw []).map Finding.word).length := by simp
      rw [h1, ← List.toFinset_card_of_nodup hb, hc]
      simp [matchedWordSet]
    have htotal : ((buildFound (lowerStr text) sw []).foldl
        (fun sum item => sum + item.count) 0) = totalOccurrences text sw := by
      rw [foldl_add_count, Nat.zero_add]
      have hmapc : (buildFound (lowerStr text) sw []).map Finding.count
          = ((buildFound (lowerStr text) sw []).map Finding.word).map
              (fun w => countOccs w (lowerStr text)) := by
        rw [List.map_map]
        exact List.map_congr_left fun f hf => (ha f hf)
      rw [hmapc, ← List.sum_toFinset _ hb, hc]
      have : ((List.map Finding.word []).toFinset : Finset Str) = ∅ := by simp
      rw [this, Finset.empty_union]
      rfl
    simp only [checkStopWords, h, Bool.false_eq_true, if_false]
    simp only [scoreFormula, ← hcard, ← htotal]
    by_cases hl : (buildFound (lowerStr text) sw []).length = 0
    · simp [hl]
    · have : 0 < (buildFound (lowerStr text) sw []).length := Nat.pos_of_ne_zero hl
      simp [hl, this]

end HtmlParser

namespace HtmlParser

/-- Extending the text and the stop-word list can only grow the matched
word set. -/
theorem matchedWordSet_mono (text ext : Str) (sw extra : List Str) :
    matchedWordSet text sw ⊆ matchedWordSet (text ++ ext) (sw ++ extra) := by
  intro x hx
  simp only [matchedWordSet, List.mem_toFinset, List.mem_filter, List.mem_map] at hx ⊢
  obtain ⟨⟨w, hw, hwx⟩, hpred⟩ := hx
  refine ⟨⟨w, List.mem_append.mpr (Or.inl hw), hwx⟩, ?_⟩
  rw [Bool.and_eq_true] at hpred ⊢
  refine ⟨hpred.1, ?_⟩
  rw [includes_iff] at hpred ⊢
  have : lowerStr (text ++ ext) = lowerStr text ++ lowerStr ext := List.map_append _ _ _
  rw [this]
  exact hpred.2.trans ((List.prefix_append _ _).isInfix)

/-- Extending the text and the stop-word list can only grow the total
occurrence count. -/
theorem totalOccurrences_mono (text ext : Str) (sw extra : List Str) :
    totalOccurrences text sw ≤ totalOccurrences (text ++ ext) (sw ++ extra) := by
  unfold totalOccurrences
  calc (matchedWordSet text sw).sum (fun w => countOccs w (lowerStr text))
      ≤ (matchedWordSet text sw).sum (fun w => countOccs w (lowerStr (text ++ ext))) := by
        apply Finset.sum_le_sum
        intro w _
        have : lowerStr (text ++ ext) = lowerStr text ++ lowerStr ext := List.map_append _ _ _
        rw [this]
        exact countOccs_le_append w (lowerStr text) (lowerStr ext)
    _ ≤ (matchedWordSet (text ++ ext) (sw ++ extra)).sum
          (fun w => countOccs w (lowerStr (text ++ ext))) := by
        apply Finset.sum_le_sum_of_subset
        exact matchedWordSet_mono text ext sw extra

/-- The spec score formula is bounded by 10. -/
theorem scoreFormula_le_ten (u total : ℕ) : scoreFormula u total ≤ 10 := by
  unfold scoreFormula
  split_ifs <;> omega

/-- The spec score formula is monotone in both arguments. -/
theorem scoreFormula_mono (u u2 t t2 : ℕ) (hu : u ≤ u2) (ht : t ≤ t2) :
    scoreFormula u t ≤ scoreFormula u2 t2 := by
  unfold scoreFormula
  split_ifs <;> omega

end HtmlParser

/-- Claim C4: for every text and stop-word list, `checkStopWords`
computes the spam score exactly as: 0 when no stop word occurs in the
text, otherwise `min(10, uniqueMatches * 2)`, raised by 2 (capped at 10)
when the total occurrence count over all matched words exceeds 5, and
forced to 10 when the total exceeds 10; and on the spec scenario text
with stop word "casino" it returns found = [(casino, 2)] and score 2. -/
theorem c4_checkStopWords_score (text : Str) (stopWords : List Str) :
    (HtmlParser.checkStopWords text stopWords).score
      = HtmlParser.scoreFormula (HtmlParser.matchedWordSet text stopWords).card
          (HtmlParser.totalOccurrences text stopWords) ∧
    HtmlParser.checkStopWords ("this casino is great, visit our casino today".toList)
        ["casino".toList]
      = ⟨[⟨"casino".toList, 2⟩], 1, 2⟩ :=
  ⟨HtmlParser.score_eq text stopWords, by decide⟩

/-- Claim C5: the spam score of `checkStopWords` is bounded by 10 (and
is a natural number, hence at least 0), and extending the text or the
stop-word list (or both) never decreases the score - in particular the
score is monotonically non-decreasing in the matched stop words. -/
theorem c5_checkStopWords_score_bounded_monotone (text ext : Str)
    (stopWords extra : List Str) :
    (HtmlParser.checkStopWords text stopWords).score ≤ 10 ∧
    (HtmlParser.checkStopWords text stopWords).score
      ≤ (HtmlParser.checkStopWords (text ++ ext) (stopWords ++ extra)).score := by
  rw [HtmlParser.score_eq, HtmlParser.score_eq]
  exact ⟨HtmlParser.scoreFormula_le_ten _ _,
    HtmlParser.scoreFormula_mono _ _ _ _
      (Finset.card_le_card (HtmlParser.matchedWordSet_mono text ext stopWords extra))
      (HtmlParser.totalOccurrences_mono text ext stopWords extra)⟩

namespace TopicAnalyzer

/-- The adjacent-pair loop produces exactly the zip of the list with its
tail. -/
theorem pairSims_eq_zipWith : ∀ l : List Topics,
    pairSims l = List.zipWith calculateTopicSimilarity l l.tail := by
  intro l
  induction l with
  | nil => rfl
  | cons a rest ih =>
    cases rest with
    | nil => rfl
    | cons b rest2 => simp [pairSims, ih]

/-- When no comparison factor is computable the similarity is zero. -/
theorem sim_zero_of_no_factor (t1 t2 : Topics)
    (h1 : (!t1.title.isEmpty && !t2.title.isEmpty) = false)
    (h2 : (!t1.headings.isEmpty && !t2.headings.isEmpty) = false)
    (h3 : (!t1.metaDescription.isEmpty && !t2.metaDescription.isEmpty) = false)
    (h4 : (!t1.contentWords.isEmpty && !t2.contentWords.isEmpty) = false) :
    calculateTopicSimilarity t1 t2 = 0 := by
  simp [calculateTopicSimilarity, h1, h2, h3, h4]

/-- Two captures without extractable content compare at similarity 0. -/
theorem sim_zero_of_noContent (t1 t2 : Topics) (h1 : noContent t1) (h2 : noContent t2) :
    calculateTopicSimilarity t1 t2 = 0 := by
  obtain ⟨a1, b1, c1, d1⟩ := h1
  obtain ⟨a2, b2, c2, d2⟩ := h2
  apply sim_zero_of_no_factor <;> simp [a1, b1, c1, d2]

/-- All adjacent-pair similarities vanish on a history without
content. -/
theorem pairSims_all_zero (l : List Topics) (h : ∀ t ∈ l, noContent t) :
    ∀ x ∈ pairSims l, x = 0 := by
  induction l with
  | nil => intro x hx; simp [pairSims] at hx
  | cons a rest ih =>
    cases rest with
    | nil => intro x hx; simp [pairSims] at hx
    | cons b rest2 =>
      intro x hx
      simp only [pairSims, List.mem_cons] at hx
      rcases hx with rfl | hx
      · exact sim_zero_of_noContent a b (h a (by simp)) (h b (by simp))
      · exact ih (fun t ht => h t (List.mem_cons_of_mem a ht)) x hx

/-- A similarity below 30 against the most recent history entry raises
the high-severity major-topic-shift flag. -/
theorem detectRedFlags_shift_mem (topics : Topics) (history : List Topics)
    (prev : Topics) (hgl : history.getLast? = some prev)
    (hsim : calculateTopicSimilarity topics prev < 30) :
    (⟨.major_topic_shift, .high⟩ : RedFlag) ∈ detectRedFlags topics history := by
  simp [detectRedFlags, hgl, hsim]

end TopicAnalyzer

/-- Claim C8: the stability score of `analyzeTopicStability` is `null`
when no capture has HTML, `100` when exactly one capture has HTML, and
otherwise the rounded mean of the pairwise similarity scores of all
chronologically adjacent analyzable captures. -/
theorem c8_stabilityScore_mean (snapshots : List (Option TopicAnalyzer.Topics)) :
    ((snapshots.filterMap id) = [] →
      (TopicAnalyzer.analyzeTopicStability snapshots).stabilityScore = none) ∧
    ((snapshots.filterMap id).length = 1 →
      (TopicAnalyzer.analyzeTopicStability snapshots).stabilityScore = some 100) ∧
    (2 ≤ (snapshots.filterMap id).length →
      (TopicAnalyzer.analyzeTopicStability snapshots).stabilityScore
        = some (jround ((List.zipWith TopicAnalyzer.calculateTopicSimilarity
              (snapshots.filterMap id) (snapshots.filterMap id).tail).sum
            / (((snapshots.filterMap id).length - 1 : ℕ) : ℚ)))) := by
  refine ⟨?_, ?_, ?_⟩
  · intro h
    simp [TopicAnalyzer.analyzeTopicStability, h]
  · intro h
    rcases hfm : snapshots.filterMap id with _ | ⟨a, rest⟩
    · rw [hfm] at h; simp at h
    · rw [hfm] at h
      simp only [List.length_cons] at h
      have hr : rest = [] := List.eq_nil_of_length_eq_zero (by omega)
      subst hr
      simp [TopicAnalyzer.analyzeTopicStability, hfm, TopicAnalyzer.pairSims]
  · intro h
    rcases hfm : snapshots.filterMap id with _ | ⟨a, rest⟩
    · rw [hfm] at h; simp at h
    · rcases rest with _ | ⟨b, rest2⟩
      · rw [hfm] at h; simp at h
      · have hlen : (TopicAnalyzer.pairSims (a :: b :: rest2)).length = rest2.length + 1 := by
          rw [TopicAnalyzer.pairSims_eq_zipWith]
          simp [List.length_zipWith]
        simp only [TopicAnalyzer.analyzeTopicStability, hfm]
        simp only [hlen, Nat.succ_pos, if_pos, Option.some.injEq]
        rw [TopicAnalyzer.pairSims_eq_zipWith]
        simp [List.length_cons]

/-- Claim C10: when none of the four comparison factors is computable
(each requires both sides to have a non-empty title, at least one
heading, a non-empty meta description, or at least one content word),
the pairwise similarity is 0, not a neutral or skipped value; and a
history of two or more analyzable captures with no extractable content
yields stability score 0 together with a high-severity major-topic-shift
red flag from the latest capture. -/
theorem c10_no_factor_zero (t1 t2 : TopicAnalyzer.Topics)
    (snapshots : List (Option TopicAnalyzer.Topics)) :
    ((!t1.title.isEmpty && !t2.title.isEmpty) = false →
      (!t1.headings.isEmpty && !t2.headings.isEmpty) = false →
      (!t1.metaDescription.isEmpty && !t2.metaDescription.isEmpty) = false →
      (!t1.contentWords.isEmpty && !t2.contentWords.isEmpty) = false →
      TopicAnalyzer.calculateTopicSimilarity t1 t2 = 0) ∧
    (2 ≤ (snapshots.filterMap id).length →
      (∀ t ∈ snapshots.filterMap id, TopicAnalyzer.noContent t) →
      (TopicAnalyzer.analyzeTopicStability snapshots).stabilityScore = some 0 ∧
      (⟨.major_topic_shift, .high⟩ : TopicAnalyzer.RedFlag)
        ∈ (TopicAnalyzer.analyzeTopicStability snapshots).redFlags) := by
  constructor
  · intro h1 h2 h3 h4
    exact TopicAnalyzer.sim_zero_of_no_factor t1 t2 h1 h2 h3 h4
  · intro hlen hnc
    rcases hfm : snapshots.filterMap id with _ | ⟨a, rest⟩
    · rw [hfm] at hlen; simp at hlen
    · rcases rest with _ | ⟨b, rest2⟩
      · rw [hfm] at hlen; simp at hlen
      · rw [hfm] at hnc
        have hzero : ∀ x ∈ TopicAnalyzer.pairSims (a :: b :: rest2), x = 0 :=
          TopicAnalyzer.pairSims_all_zero _ hnc
        have hsum : (TopicAnalyzer.pairSims (a :: b :: rest2)).sum = 0 :=
          List.sum_eq_zero hzero
        have hlenp : (TopicAnalyzer.pairSims (a :: b :: rest2)).length = rest2.length + 1 := by
          rw [TopicAnalyzer.pairSims_eq_zipWith]
          simp [List.length_zipWith]
        constructor
        · simp only [TopicAnalyzer.analyzeTopicStability, hfm]
          simp only [hlenp, Nat.succ_pos, if_pos, hsum, Option.some.injEq]
          norm_num [jround]
        · have hhist : (a :: b :: rest2).dropLast ≠ [] := by
            rw [List.dropLast_cons₂]
            simp
          have hgl := List.getLast?_eq_getLast_of_ne_nil hhist
          have hlast : (a :: b :: rest2).getLast (List.cons_ne_nil a (b :: rest2))
              ∈ a :: b :: rest2 := List.getLast_mem _
          have hprevmem : (a :: b :: rest2).dropLast.getLast hhist ∈ a :: b :: rest2 :=
            (List.dropLast_sublist (a :: b :: rest2)).subset (List.getLast_mem hhist)
          have hsim : TopicAnalyzer.calculateTopicSimilarity
              ((a :: b :: rest2).getLast (List.cons_ne_nil a (b :: rest2)))
              ((a :: b :: rest2).dropLast.getLast hhist) < 30 := by
            rw [TopicAnalyzer.sim_zero_of_noContent _ _ (hnc _ hlast) (hnc _ hprevmem)]
            norm_num
          simp only [TopicAnalyzer.analyzeTopicStability, hfm]
          exact TopicAnalyzer.detectRedFlags_shift_mem _ _ _ hgl hsim

/-- Witness for C8 at concrete inputs: a list with no HTML gives `null`,
a single capture gives `100`, and two contentless captures among three
snapshots give the rounded mean `0` of their adjacent similarities. -/
theorem c8_stabilityScore_mean_witness :
    (TopicAnalyzer.analyzeTopicStability
        ([none] : List (Option TopicAnalyzer.Topics))).stabilityScore = none ∧
    (TopicAnalyzer.analyzeTopicStability
        [some ⟨"home".toList, [], [], []⟩]).stabilityScore = some 100 ∧
    (TopicAnalyzer.analyzeTopicStability
        [some ⟨[], [], [], []⟩, none, some ⟨[], [], [], []⟩]).stabilityScore = some 0 := by
  refine ⟨(c8_stabilityScore_mean [none]).1 rfl,
    (c8_stabilityScore_mean [some ⟨"home".toList, [], [], []⟩]).2.1 rfl, ?_⟩
  have h := (c8_stabilityScore_mean
    [some ⟨[], [], [], []⟩, none, some ⟨[], [], [], []⟩]).2.2 (by decide)
  rw [h]
  have hsim : TopicAnalyzer.calculateTopicSimilarity ⟨[], [], [], []⟩ ⟨[], [], [], []⟩ = 0 := by
    simp [TopicAnalyzer.calculateTopicSimilarity]
  simp [hsim]
  norm_num [jround]

/-- Witness for C10 at concrete inputs: two captures with no extractable
content compare at similarity 0, and a two-capture history of such
captures gives stability score 0 with the major-topic-shift flag. -/
theorem c10_no_factor_zero_witness :
    TopicAnalyzer.calculateTopicSimilarity ⟨[], [], [], []⟩ ⟨[], [], [], []⟩ = 0 ∧
    (TopicAnalyzer.analyzeTopicStability
        [some ⟨[], [], [], []⟩, some ⟨[], [], [], []⟩]).stabilityScore = some 0 ∧
    (⟨.major_topic_shift, .high⟩ : TopicAnalyzer.RedFlag)
      ∈ (TopicAnalyzer.analyzeTopicStability
          [some ⟨[], [], [], []⟩, some ⟨[], [], [], []⟩]).redFlags := by
  have h := c10_no_factor_zero ⟨[], [], [], []⟩ ⟨[], [], [], []⟩
    [some ⟨[], [], [], []⟩, some ⟨[], [], [], []⟩]
  exact ⟨h.1 rfl rfl rfl rfl, (h.2 (by decide) (by decide)).1, (h.2 (by decide) (by decide)).2⟩

namespace WaybackClient

/-- Unfolding `getSnapshotsGo` when the attempt times out. -/
theorem getSnapshotsGo_timeout (env : ℕ → CdxResp) (m fuel r : ℕ)
    (h : env r = .netTimeout) :
    getSnapshotsGo env m (fuel + 1) r = ⟨.error .timeout, []⟩ := by
  simp only [getSnapshotsGo, h]

/-- Unfolding `getSnapshotsGo` on an HTTP response. -/
theorem getSnapshotsGo_http (env : ℕ → CdxResp) (m fuel r status : ℕ)
    (data : List CdxRow) (h : env r = .http status data) :
    getSnapshotsGo env m (fuel + 1) r =
      if status = 429 then
        if r < m then
          ⟨(getSnapshotsGo env m fuel (r + 1)).result,
            (2 ^ r * 2000) :: (getSnapshotsGo env m fuel (r + 1)).delays⟩
        else ⟨.error .rateLimited, []⟩
      else if 200 ≤ status ∧ status < 300 then ⟨.ok (parseCdxData data), []⟩
      else ⟨.error (.indexUnavailable status), []⟩ := by
  simp only [getSnapshotsGo, h]

/-- Fuel irrelevance for `getSnapshotsGo`, for any fuel strictly larger
than the remaining retries. -/
theorem getSnapshotsGo_fuel (env : ℕ → CdxResp) (m : ℕ) : ∀ (f1 f2 r : ℕ), r ≤ m →
    m + 1 - r ≤ f1 → m + 1 - r ≤ f2 →
    getSnapshotsGo env m f1 r = getSnapshotsGo env m f2 r := by
  intro f1
  induction f1 with
  | zero =>
    intro f2 r hr h1 _
    omega
  | succ n ih =>
    intro f2 r hr h1 h2
    cases f2 with
    | zero => omega
    | succ k =>
      cases henv : env r with
      | netTimeout =>
        rw [getSnapshotsGo_timeout env m n r henv, getSnapshotsGo_timeout env m k r henv]
      | http status data =>
        rw [getSnapshotsGo_http env m n r status data henv,
          getSnapshotsGo_http env m k r status data henv]
        by_cases h429 : status = 429
        · simp only [h429, if_pos rfl]
          by_cases hlt : r < m
          · rw [if_pos hlt, if_pos hlt, ih k (r + 1) (by omega) (by omega) (by omega)]
          · rw [if_neg hlt, if_neg hlt]
        · rw [if_neg h429, if_neg h429]

/-- One-step unfolding of `getSnapshots` on a timeout. -/
theorem getSnapshots_timeout_step (env : ℕ → CdxResp) (r m : ℕ) (hr : r ≤ m)
    (h : env r = .netTimeout) :
    getSnapshots env r m = ⟨.error .timeout, []⟩ := by
  have hf : m + 1 - r = (m - r) + 1 := by omega
  show getSnapshotsGo env m (m + 1 - r) r = _
  rw [hf, getSnapshotsGo_timeout env m (m - r) r h]

/-- One-step unfolding of `getSnapshots` on an HTTP response. -/
theorem getSnapshots_http_step (env : ℕ → CdxResp) (r m status : ℕ)
    (data : List CdxRow) (hr : r ≤ m) (h : env r = .http status data) :
    getSnapshots env r m =
      if status = 429 then
        if r < m then
          ⟨(getSnapshots env (r + 1) m).result,
            (2 ^ r * 2000) :: (getSnapshots env (r + 1) m).delays⟩
        else ⟨.error .rateLimited, []⟩
      else if 200 ≤ status ∧ status < 300 then ⟨.ok (parseCdxData data), []⟩
      else ⟨.error (.indexUnavailable status), []⟩ := by
  have hf : m + 1 - r = (m - r) + 1 := by omega
  show getSnapshotsGo env m (m + 1 - r) r = _
  rw [hf, getSnapshotsGo_http env m (m - r) r status data h]
  have hrec : getSnapshotsGo env m (m - r) (r + 1) = getSnapshots env (r + 1) m := by
    show _ = getSnapshotsGo env m (m + 1 - (r + 1)) (r + 1)
    rw [show m + 1 - (r + 1) = m - r from by omega]
  rw [hrec]

/-- Persistent rate limiting: every attempt up to `maxRetries` answers
429, so the call sleeps the exponential backoff `2 ^ i * 2000` ms at
each retry `i` and ends rate-limited. -/
theorem getSnapshots_allRateLimited (env : ℕ → CdxResp) (m : ℕ) :
    ∀ (k r : ℕ), m - r = k → r ≤ m →
    (∀ i, r ≤ i → i ≤ m → ∃ d, env i = .http 429 d) →
    getSnapshots env r m
      = ⟨.error .rateLimited, (List.range' r (m - r)).map (fun i => 2 ^ i * 2000)⟩ := by
  intro k
  induction k with
  | zero =>
    intro r hk hr h429
    obtain ⟨d, hd⟩ := h429 r le_rfl hr
    rw [getSnapshots_http_step env r m 429 d hr hd]
    have hnlt : ¬ r < m := by omega
    rw [if_pos rfl, if_neg hnlt, hk]
    simp
  | succ k ih =>
    intro r hk hr h429
    obtain ⟨d, hd⟩ := h429 r le_rfl hr
    rw [getSnapshots_http_step env r m 429 d hr hd]
    have hlt : r < m := by omega
    rw [if_pos rfl, if_pos hlt,
      ih (r + 1) (by omega) (by omega) (fun i hi him => h429 i (by omega) him)]
    rw [show m - r = (m - (r + 1)) + 1 from by omega, List.range'_succ]
    simp

end WaybackClient

/-- Claim C7: `getSnapshots` retries HTTP 429 with exponential backoff
`2 ^ attempt * 2000` ms while attempts remain (the source default is
`maxRetries = 3`) and then fails rate-limited; any other non-2xx
response fails index-unavailable at once; a 2xx response parses the
body, and a body with no matching records - empty, or a lone header
row - yields an empty capture list, not an error. -/
theorem c7_getSnapshots_behavior (env : ℕ → WaybackClient.CdxResp)
    (maxRetries st : ℕ) (data : List WaybackClient.CdxRow)
    (row : WaybackClient.CdxRow) :
    ((∀ i, i ≤ maxRetries → ∃ d, env i = .http 429 d) →
      WaybackClient.getSnapshots env 0 maxRetries
        = ⟨.error .rateLimited, (List.range maxRetries).map (fun i => 2 ^ i * 2000)⟩) ∧
    (env 0 = .http st data → st ≠ 429 → ¬(200 ≤ st ∧ st < 300) →
      WaybackClient.getSnapshots env 0 maxRetries
        = ⟨.error (.indexUnavailable st), []⟩) ∧
    (env 0 = .http 200 data →
      WaybackClient.getSnapshots env 0 maxRetries
        = ⟨.ok (WaybackClient.parseCdxData data), []⟩) ∧
    (WaybackClient.parseCdxData [] = []) ∧
    (row.timestamp = "timestamp".toList → WaybackClient.parseCdxData [row] = []) := by
  refine ⟨?_, ?_, ?_, ?_, ?_⟩
  · intro h429
    rw [WaybackClient.getSnapshots_allRateLimited env maxRetries (maxRetries - 0) 0 rfl
      (Nat.zero_le _) (fun i _ him => h429 i him)]
    rw [Nat.sub_zero, List.range_eq_range']
  · intro henv hne hok
    rw [WaybackClient.getSnapshots_http_step env 0 maxRetries st data (Nat.zero_le _) henv]
    rw [if_neg hne, if_neg hok]
  · intro henv
    rw [WaybackClient.getSnapshots_http_step env 0 maxRetries 200 data (Nat.zero_le _) henv]
    norm_num
  · rfl
  · intro hrow
    simp [WaybackClient.parseCdxData, WaybackClient.hasHeaders, hrow]

/-- Witness for C7 at concrete environments with the source default
`maxRetries = 3`: persistent 429 sleeps 2s, 4s, 8s and fails
rate-limited; HTTP 500 fails index-unavailable; HTTP 200 with an empty
body returns the empty capture list. -/
theorem c7_getSnapshots_behavior_witness :
    WaybackClient.getSnapshots (fun _ => .http 429 []) 0 3
      = ⟨.error .rateLimited, [2000, 4000, 8000]⟩ ∧
    WaybackClient.getSnapshots (fun _ => .http 500 []) 0 3
      = ⟨.error (.indexUnavailable 500), []⟩ ∧
    WaybackClient.getSnapshots (fun _ => .http 200 []) 0 3 = ⟨.ok [], []⟩ := by
  refine ⟨?_, ?_, ?_⟩
  · rw [(c7_getSnapshots_behavior (fun _ => .http 429 []) 3 0 [] ⟨[], [], [], [], []⟩).1
      (fun i _ => ⟨[], rfl⟩)]
    rfl
  · rw [(c7_getSnapshots_behavior (fun _ => .http 500 []) 3 500 [] ⟨[], [], [], [], []⟩).2.1
      rfl (by decide) (by decide)]
  · rw [(c7_getSnapshots_behavior (fun _ => .http 200 []) 3 0 [] ⟨[], [], [], [], []⟩).2.2.1
      rfl]
    rfl

namespace WaybackAdapter

/-- The failure arm of the loop body. -/
theorem spamStep_none (sw : List Str) (st : SpamLoopState) (ts : Str) :
    spamStep sw st (ts, none) =
      { st with
        failedSnapshots := st.failedSnapshots + 1
        snapshotErrors := st.snapshotErrors ++ [ts] } := rfl

/-- Field effects of the success arm of the loop body on the counters
tracked by claim C6. -/
theorem spamStep_some_fields (sw : List Str) (st : SpamLoopState) (ts t : Str) :
    (spamStep sw st (ts, some t)).successfullyAnalyzed = st.successfullyAnalyzed + 1 ∧
    (spamStep sw st (ts, some t)).maxSpamScore
      = max st.maxSpamScore (HtmlParser.checkStopWords t sw).score ∧
    (spamStep sw st (ts, some t)).failedSnapshots = st.failedSnapshots ∧
    (spamStep sw st (ts, some t)).snapshotErrors = st.snapshotErrors := by
  simp only [spamStep]
  by_cases hc : 0 < (HtmlParser.checkStopWords t sw).count <;> simp [hc]

/-- Characterization of the capture loop: analyzed and failed counts,
error records and the running maximum over the whole capture list. -/
theorem spamFold_spec (sw : List Str) : ∀ (snaps : List (Str × Option Str))
    (st : SpamLoopState),
    (snaps.foldl (spamStep sw) st).successfullyAnalyzed
      = st.successfullyAnalyzed + (successTexts snaps).length ∧
    (snaps.foldl (spamStep sw) st).failedSnapshots
      = st.failedSnapshots + (snaps.filter (fun s => s.2.isNone)).length ∧
    (snaps.foldl (spamStep sw) st).snapshotErrors
      = st.snapshotErrors ++ (snaps.filter (fun s => s.2.isNone)).map Prod.fst ∧
    (snaps.foldl (spamStep sw) st).maxSpamScore
      = max st.maxSpamScore (maxScoreOf sw snaps) := by
  intro snaps
  induction snaps with
  | nil => intro st; simp [successTexts, maxScoreOf]
  | cons hd tl ih =>
    intro st
    obtain ⟨ts, outcome⟩ := hd
    cases outcome with
    | none =>
      obtain ⟨i1, i2, i3, i4⟩ := ih
        { st with
          failedSnapshots := st.failedSnapshots + 1
          snapshotErrors := st.snapshotErrors ++ [ts] }
      refine ⟨?_, ?_, ?_, ?_⟩ <;> simp only [List.foldl_cons, spamStep_none]
      · rw [i1]
        simp [successTexts]
      · rw [i2]
        simp only [List.filter_cons, Option.isNone_none, if_pos, List.length_cons]
        omega
      · rw [i3]
        simp only [List.filter_cons, Option.isNone_none, if_pos, List.map_cons]
        simp [List.append_assoc]
      · rw [i4]
        simp [maxScoreOf, successTexts]
    | some t =>
      obtain ⟨f1, f2, f3, f4⟩ := spamStep_some_fields sw st ts t
      obtain ⟨i1, i2, i3, i4⟩ := ih (spamStep sw st (ts, some t))
      refine ⟨?_, ?_, ?_, ?_⟩ <;> simp only [List.foldl_cons]
      · rw [i1, f1]
        simp [successTexts]
        omega
      · rw [i2, f3]
        simp [List.filter_cons]
      · rw [i3, f4]
        simp [List.filter_cons]
      · rw [i4, f2]
        have : maxScoreOf sw ((ts, some t) :: tl)
            = max (HtmlParser.checkStopWords t sw).score (maxScoreOf sw tl) := by
          simp [maxScoreOf, successTexts]
        rw [this, Nat.max_assoc]

/-- `spamFold_spec` at the initial state. -/
theorem spamFold_init (sw : List Str) (snaps : List (Str × Option Str)) :
    (snaps.foldl (spamStep sw) initSpamLoopState).successfullyAnalyzed
      = (successTexts snaps).length ∧
    (snaps.foldl (spamStep sw) initSpamLoopState).failedSnapshots
      = (snaps.filter (fun s => s.2.isNone)).length ∧
    (snaps.foldl (spamStep sw) initSpamLoopState).snapshotErrors
      = (snaps.filter (fun s => s.2.isNone)).map Prod.fst ∧
    (snaps.foldl (spamStep sw) initSpamLoopState).maxSpamScore = maxScoreOf sw snaps := by
  obtain ⟨f1, f2, f3, f4⟩ := spamFold_spec sw snaps initSpamLoopState
  refine ⟨?_, ?_, ?_, ?_⟩ <;> simp_all [initSpamLoopState]

end WaybackAdapter

/-- Claim C6: after a capture listing with n > 0 captures of which some
are successfully analyzed and the rest fail, `analyzeDomainForSpam`
reports snapshotsFound = n, snapshotsAnalyzed = number of successes,
failedSnapshots = number of failures, records one error entry per
failed capture (with its timestamp, in order) without aborting the
pipeline, and the final status is SPAM, SUSPICIOUS or CLEAN by the
max-score thresholds (at least 8; 5 to 7.9; below 5) whenever at least
one capture was analyzed - UNAVAILABLE occurs exactly when none was. -/
theorem c6_analyzeDomainForSpam_counts (stopWords : List Str)
    (snapshots : List (Str × Option Str)) (hne : snapshots ≠ []) :
    (WaybackAdapter.analyzeDomainForSpam stopWords snapshots).snapshotsFound
      = snapshots.length ∧
    (WaybackAdapter.analyzeDomainForSpam stopWords snapshots).snapshotsAnalyzed
      = (WaybackAdapter.successTexts snapshots).length ∧
    (WaybackAdapter.analyzeDomainForSpam stopWords snapshots).failedSnapshots
      = (snapshots.filter (fun s => s.2.isNone)).length ∧
    (WaybackAdapter.analyzeDomainForSpam stopWords snapshots).snapshotErrors
      = (snapshots.filter (fun s => s.2.isNone)).map Prod.fst ∧
    ((WaybackAdapter.analyzeDomainForSpam stopWords snapshots).status
        = WaybackAdapter.SpamStatus.UNAVAILABLE
      ↔ (WaybackAdapter.successTexts snapshots).length = 0) ∧
    (1 ≤ (WaybackAdapter.successTexts snapshots).length →
      ((WaybackAdapter.analyzeDomainForSpam stopWords snapshots).status
          = WaybackAdapter.SpamStatus.SPAM
        ↔ 8 ≤ WaybackAdapter.maxScoreOf stopWords snapshots) ∧
      ((WaybackAdapter.analyzeDomainForSpam stopWords snapshots).status
          = WaybackAdapter.SpamStatus.SUSPICIOUS
        ↔ (5 ≤ WaybackAdapter.maxScoreOf stopWords snapshots ∧
           WaybackAdapter.maxScoreOf stopWords snapshots < 8)) ∧
      ((WaybackAdapter.analyzeDomainForSpam stopWords snapshots).status
          = WaybackAdapter.SpamStatus.CLEAN
        ↔ WaybackAdapter.maxScoreOf stopWords snapshots < 5) ∧
      (WaybackAdapter.analyzeDomainForSpam stopWords snapshots).status
        ≠ WaybackAdapter.SpamStatus.UNAVAILABLE) := by
  have hip : snapshots.isEmpty = false := by
    cases snapshots with
    | nil => exact absurd rfl hne
    | cons a l => rfl
  obtain ⟨f1, f2, f3, f4⟩ := WaybackAdapter.spamFold_init stopWords snapshots
  simp only [WaybackAdapter.analyzeDomainForSpam, hip, Bool.false_eq_true, if_false]
  rw [f1, f2, f3, f4]
  refine ⟨trivial, rfl, rfl, rfl, ?_, ?_⟩
  · by_cases h0 : (WaybackAdapter.successTexts snapshots).length = 0
    · simp [h0]
    · split_ifs
      all_goals simp_all
  · intro hk
    have h0 : ¬ (WaybackAdapter.successTexts snapshots).length = 0 := by omega
    refine ⟨?_, ?_, ?_, ?_⟩ <;> split_ifs <;> simp_all <;> omega

/-- Witness for C6 at a concrete run: two captures, one analyzed (text
mentioning one stop word, score 2) and one failed; counts are 2/1/1,
the failure is recorded with its timestamp, and the status is CLEAN,
not UNAVAILABLE. -/
theorem c6_analyzeDomainForSpam_counts_witness :
    (WaybackAdapter.analyzeDomainForSpam ["casino".toList]
        [("t1".toList, some "visit casino now".toList),
         ("t2".toList, none)]).snapshotsFound = 2 ∧
    (WaybackAdapter.analyzeDomainForSpam ["casino".toList]
        [("t1".toList, some "visit casino now".toList),
         ("t2".toList, none)]).snapshotsAnalyzed = 1 ∧
    (WaybackAdapter.analyzeDomainForSpam ["casino".toList]
        [("t1".toList, some "visit casino now".toList),
         ("t2".toList, none)]).failedSnapshots = 1 ∧
    (WaybackAdapter.analyzeDomainForSpam ["casino".toList]
        [("t1".toList, some "visit casino now".toList),
         ("t2".toList, none)]).snapshotErrors = ["t2".toList] ∧
    (WaybackAdapter.analyzeDomainForSpam ["casino".toList]
        [("t1".toList, some "visit casino now".toList),
         ("t2".toList, none)]).status = WaybackAdapter.SpamStatus.CLEAN ∧
    (WaybackAdapter.analyzeDomainForSpam ["casino".toList]
        [("t1".toList, some "visit casino now".toList),
         ("t2".toList, none)]).status ≠ WaybackAdapter.SpamStatus.UNAVAILABLE := by
  have h := c6_analyzeDomainForSpam_counts ["casino".toList]
    [("t1".toList, some "visit casino now".toList), ("t2".toList, none)] (by decide)
  exact ⟨h.1.trans (by decide), h.2.1.trans (by decide), h.2.2.1.trans (by decide),
    h.2.2.2.1.trans (by decide),
    ((h.2.2.2.2.2 (by decide)).2.2.1).mpr (by decide),
    (h.2.2.2.2.2 (by decide)).2.2.2⟩

/-- `find?` returns the same result on any permutation of a list in
which at most one element can satisfy the predicate. -/
theorem find?_eq_of_perm_of_unique {α : Type} (p : α → Bool) (l l2 : List α)
    (hp : l.Perm l2)
    (huniq : ∀ a ∈ l, ∀ b ∈ l, p a = true → p b = true → a = b) :
    l.find? p = l2.find? p := by
  cases hfl : l.find? p with
  | none =>
    cases hfl2 : l2.find? p with
    | none => rfl
    | some b =>
      have hb := List.find?_some hfl2
      have hbm : b ∈ l := hp.mem_iff.mpr (List.mem_of_find?_eq_some hfl2)
      exact absurd hb (by simpa using List.find?_eq_none.mp hfl b hbm)
  | some a =>
    have ha := List.find?_some hfl
    have ham := List.mem_of_find?_eq_some hfl
    cases hfl2 : l2.find? p with
    | none =>
      exact absurd ha (by simpa using List.find?_eq_none.mp hfl2 a (hp.mem_iff.mp ham))
    | some b =>
      have hb := List.find?_some hfl2
      have hbm : b ∈ l := hp.mem_iff.mpr (List.mem_of_find?_eq_some hfl2)
      rw [huniq a ham b hbm ha hb]

namespace WaybackAdapter

/-- The entry selected for a domain carries that domain. -/
theorem sortEntrySpam_domain (rs : List SpamBatchEntry) (d : Str) :
    (match rs.find? (fun r : SpamBatchEntry => r.domain == d) with
      | some r => r
      | none => placeholderSpam d).domain = d := by
  cases hf : rs.find? (fun r : SpamBatchEntry => r.domain == d) with
  | none => rfl
  | some r =>
    show r.domain = d
    have hp := List.find?_some hf
    exact eq_of_beq hp

/-- The entry selected for a domain carries that domain (full
pipeline). -/
theorem sortEntryComplete_domain (cs : List CompleteBatchEntry) (d : Str) :
    (match cs.find? (fun r : CompleteBatchEntry => r.domain == d) with
      | some r => r
      | none => placeholderComplete d).domain = d := by
  cases hf : cs.find? (fun r : CompleteBatchEntry => r.domain == d) with
  | none => rfl
  | some r =>
    show r.domain = d
    have hp := List.find?_some hf
    exact eq_of_beq hp

end WaybackAdapter

/-- Claim C9: both batch operations return their result array in
exactly the order of the trimmed non-empty input domains; a domain with
no recorded result is filled with the UNAVAILABLE placeholder; and the
sorted output is unchanged under any permutation of the recorded
results (one result per domain), so the completion order of the
concurrent analyses does not matter. -/
theorem c9_batch_result_order (domains : List Str)
    (rs rs2 : List WaybackAdapter.SpamBatchEntry)
    (cs cs2 : List WaybackAdapter.CompleteBatchEntry) :
    ((WaybackAdapter.sortResultsSpam domains rs).map (fun e => e.domain)
      = WaybackAdapter.domainListOf domains) ∧
    (∀ d ∈ WaybackAdapter.domainListOf domains, (∀ r ∈ rs, r.domain ≠ d) →
      WaybackAdapter.placeholderSpam d ∈ WaybackAdapter.sortResultsSpam domains rs) ∧
    (rs.Perm rs2 → (rs.map (fun e => e.domain)).Nodup →
      WaybackAdapter.sortResultsSpam domains rs
        = WaybackAdapter.sortResultsSpam domains rs2) ∧
    ((WaybackAdapter.sortResultsComplete domains cs).map (fun e => e.domain)
      = WaybackAdapter.domainListOf domains) ∧
    (∀ d ∈ WaybackAdapter.domainListOf domains, (∀ r ∈ cs, r.domain ≠ d) →
      WaybackAdapter.placeholderComplete d
        ∈ WaybackAdapter.sortResultsComplete domains cs) ∧
    (cs.Perm cs2 → (cs.map (fun e => e.domain)).Nodup →
      WaybackAdapter.sortResultsComplete domains cs
        = WaybackAdapter.sortResultsComplete domains cs2) := by
  refine ⟨?_, ?_, ?_, ?_, ?_, ?_⟩
  · simp only [WaybackAdapter.sortResultsSpam, List.map_map]
    exact (List.map_congr_left
      (fun d _ => WaybackAdapter.sortEntrySpam_domain rs d)).trans (List.map_id _)
  · intro d hd hnone
    have hfind : rs.find? (fun r => r.domain == d) = none :=
      List.find?_eq_none.mpr (fun r hr => by simpa using hnone r hr)
    exact List.mem_map.mpr ⟨d, hd, by rw [hfind]⟩
  · intro hp hnd
    simp only [WaybackAdapter.sortResultsSpam]
    apply List.map_congr_left
    intro d _
    rw [find?_eq_of_perm_of_unique _ rs rs2 hp
      (fun a ha b hb pa pb =>
        List.inj_on_of_nodup_map hnd ha hb ((eq_of_beq pa).trans (eq_of_beq pb).symm))]
  · simp only [WaybackAdapter.sortResultsComplete, List.map_map]
    exact (List.map_congr_left
      (fun d _ => WaybackAdapter.sortEntryComplete_domain cs d)).trans (List.map_id _)
  · intro d hd hnone
    have hfind : cs.find? (fun r => r.domain == d) = none :=
      List.find?_eq_none.mpr (fun r hr => by simpa using hnone r hr)
    exact List.mem_map.mpr ⟨d, hd, by rw [hfind]⟩
  · intro hp hnd
    simp only [WaybackAdapter.sortResultsComplete]
    apply List.map_congr_left
    intro d _
    rw [find?_eq_of_perm_of_unique _ cs cs2 hp
      (fun a ha b hb pa pb =>
        List.inj_on_of_nodup_map hnd ha hb ((eq_of_beq pa).trans (eq_of_beq pb).symm))]

/-- Witness for C9 at concrete inputs: with input domains
`["  a.com  ", "", "b.com"]` (trimmed, empty dropped) and a single
recorded result for b.com, the missing a.com slot is filled with the
placeholder; and swapping the completion order of two recorded results
leaves the sorted output unchanged. -/
theorem c9_batch_result_order_witness :
    WaybackAdapter.placeholderSpam "a.com".toList
      ∈ WaybackAdapter.sortResultsSpam
          ["  a.com  ".toList, "".toList, "b.com".toList]
          [⟨"b.com".toList, .CLEAN, none, 3, 3⟩] ∧
    WaybackAdapter.sortResultsSpam ["  a.com  ".toList, "".toList, "b.com".toList]
        [⟨"a.com".toList, .CLEAN, none, 2, 2⟩, ⟨"b.com".toList, .SPAM, none, 3, 3⟩]
      = WaybackAdapter.sortResultsSpam ["  a.com  ".toList, "".toList, "b.com".toList]
        [⟨"b.com".toList, .SPAM, none, 3, 3⟩, ⟨"a.com".toList, .CLEAN, none, 2, 2⟩] ∧
    WaybackAdapter.placeholderComplete "a.com".toList
      ∈ WaybackAdapter.sortResultsComplete
          ["  a.com  ".toList, "".toList, "b.com".toList]
          [⟨"b.com".toList, .COMPLETE, none⟩] ∧
    WaybackAdapter.sortResultsComplete ["  a.com  ".toList, "".toList, "b.com".toList]
        [⟨"a.com".toList, .COMPLETE, none⟩, ⟨"b.com".toList, .UNAVAILABLE, none⟩]
      = WaybackAdapter.sortResultsComplete ["  a.com  ".toList, "".toList, "b.com".toList]
        [⟨"b.com".toList, .UNAVAILABLE, none⟩, ⟨"a.com".toList, .COMPLETE, none⟩] := by
  refine ⟨?_, ?_, ?_, ?_⟩
  · exact (c9_batch_result_order ["  a.com  ".toList, "".toList, "b.com".toList]
      [⟨"b.com".toList, .CLEAN, none, 3, 3⟩] [] [] []).2.1
      ("a.com".toList) (by decide) (by decide)
  · exact (c9_batch_result_order ["  a.com  ".toList, "".toList, "b.com".toList]
      [⟨"a.com".toList, .CLEAN, none, 2, 2⟩, ⟨"b.com".toList, .SPAM, none, 3, 3⟩]
      [⟨"b.com".toList, .SPAM, none, 3, 3⟩, ⟨"a.com".toList, .CLEAN, none, 2, 2⟩]
      [] []).2.2.1 (by decide) (by decide)
  · exact (c9_batch_result_order ["  a.com  ".toList, "".toList, "b.com".toList]
      [] [] [⟨"b.com".toList, .COMPLETE, none⟩] []).2.2.2.2.1
      ("a.com".toList) (by decide) (by decide)
  · exact (c9_batch_result_order ["  a.com  ".toList, "".toList, "b.com".toList]
      [] []
      [⟨"a.com".toList, .COMPLETE, none⟩, ⟨"b.com".toList, .UNAVAILABLE, none⟩]
      [⟨"b.com".toList, .UNAVAILABLE, none⟩, ⟨"a.com".toList, .COMPLETE, none⟩]).2.2.2.2.2
      (by decide) (by decide)
